import Mathlib

/-!
# private-ca: a verification development

A shallow embedding of the Go sources

* `internal/ca/ca.go`                      (`New`, `WithValidity`, `Sign`, `endEntityTemplate`)
* `cmd/private-ca-server/main.go`          (`handler.sign`)
* `cmd/private-ca-server/servercert.go`    (`NewServerCert`, `serverCert.Get`, `serverCert.sign`)
* `cmd/private-ca-client/main.go`          (the part of `main` that follows the HTTP response)

Conventions.

* Go `[]byte` and the byte content of Go `string` values that carry encoded data are
  `ByteSeq` (a list of byte values).  Go strings that are compared with literals
  (method, block type, header values, host names, error texts) are Lean `String`s.
* A Go `error` is the text returned by its `Error()` method; `(T, error)` results are
  `Except String T`.
* The standard library functions the sources call are not part of the repository.
  The deterministic ones are the fields of `Lib`; the results of the randomised or
  clock dependent ones, for one call of `Sign`, are the fields of `SignEnv`.
* `time.Time` is an instant counted in nanoseconds and `time.Duration` a number of
  nanoseconds, so `Time.Add` is addition and `Time.Sub` is subtraction (the `int64`
  saturation of `Sub` cannot occur for a difference that is itself a `Duration`).
-/

namespace PrivateCA

/-! ## Data model -/

/-- Byte sequences: Go `[]byte`, and Go `string` values holding encoded data. -/
abbrev ByteSeq := List Nat

/-- Instants (`time.Time`), in nanoseconds. -/
abbrev Time := Int

/-- Durations (`time.Duration`), in nanoseconds. -/
abbrev Duration := Int

/-- Constant `time.Hour`. -/
def Hour : Duration := 3600 * 1000000000

/-- Method `Time.Add`. -/
def Time.Add (t : Time) (d : Duration) : Time := t + d

/-- Method `Time.Sub`. -/
def Time.Sub (t u : Time) : Duration := t - u

/-- The `pem.Block` fields the sources use (`Typ` is the field `Type`). -/
structure Block where
  Typ : String
  Bytes : ByteSeq
deriving DecidableEq, Repr

/-- The `pkix.Name` field the sources use. -/
structure Name where
  CommonName : String := ""
deriving DecidableEq, Repr

/-- Constant `x509.KeyUsageDigitalSignature`. -/
def KeyUsageDigitalSignature : Nat := 1

/-- Constant `x509.ExtKeyUsageServerAuth`. -/
def ExtKeyUsageServerAuth : Nat := 1

/-- Constant `x509.ExtKeyUsageClientAuth`. -/
def ExtKeyUsageClientAuth : Nat := 2

/-- The `x509.Certificate` fields the sources read or write; the defaults are the Go
zero values. -/
structure Certificate where
  SerialNumber : Nat := 0
  NotBefore : Time := 0
  NotAfter : Time := 0
  Subject : Name := {}
  KeyUsage : Nat := 0
  ExtKeyUsage : List Nat := []
  SubjectKeyId : ByteSeq := []
  DNSNames : List String := []
  BasicConstraintsValid : Bool := false
  IsCA : Bool := false
deriving DecidableEq, Repr

/-- Private keys (`*ecdsa.PrivateKey`, and the `interface{}` signer of the CA). -/
abbrev PrivateKey := Nat

/-- Public keys (`crypto.PublicKey`). -/
abbrev PublicKey := Nat

/-- The `tls.Certificate` fields that `tls.X509KeyPair` fills. -/
structure TLSCertificate where
  Certificate : List ByteSeq
  PrivateKey : PrivateKey
deriving DecidableEq, Repr

/-- The deterministic standard-library functions called by the sources.
`pemDecode` is `pem.Decode`: `none` is the nil block, otherwise the block and the
remainder of the input, which is shorter than the input (`pemDecode_rest`).
`pemEncode` is `pem.EncodeToMemory` (and `pem.Encode` into a buffer) for a block
without headers. -/
structure Lib where
  pemDecode : ByteSeq → Option (Block × ByteSeq)
  pemDecode_rest : ∀ d b r, pemDecode d = some (b, r) → r.length < d.length
  pemEncode : Block → ByteSeq
  ParseCertificate : ByteSeq → Except String Certificate
  ParsePKCS8PrivateKey : ByteSeq → Except String PrivateKey
  MarshalPKCS8PrivateKey : PrivateKey → Except String ByteSeq
  Public : PrivateKey → PublicKey
  X509KeyPair : ByteSeq → ByteSeq → Except String TLSCertificate
  AddDate : Time → Int → Int → Int → Time

/-- What the random source, the clock and the randomised signature give during one
call of `Sign`: `ecdsa.GenerateKey`, `rand.Int`, `rand.Read`, `time.Now` (the reading
taken inside `endEntityTemplate`) and `x509.CreateCertificate`. -/
structure SignEnv where
  GenerateKey : Except String PrivateKey
  randInt : Nat → Except String Nat
  randRead : Nat → Except String ByteSeq
  Now : Time
  CreateCertificate : Certificate → Certificate → PublicKey → PrivateKey → Except String ByteSeq

/-! ## File system (used by `os.ReadFile`, `os.Rename`, `os.WriteFile`) -/

/-- A regular file: content and permission bits. -/
structure File where
  content : ByteSeq
  mode : Nat
deriving DecidableEq, Repr

/-- A file-system state: the regular file stored under each path, if any. -/
abbrev FS := String → Option File

/-- Function `os.ReadFile`. -/
def ReadFile (fs : FS) (name : String) : Except String ByteSeq :=
  match fs name with
  | none => .error ("open " ++ name ++ ": no such file or directory")
  | some f => .ok f.content

/-- What the operating system answers to the calls of `os.Rename` and `os.WriteFile`
of one run, beyond what the file-system state decides: the error of a rename whose
source exists (directory permissions, target is a directory), the error of the
`OpenFile` of `WriteFile`, the error of its `Write` with the number of bytes that
reached the file, and the error of its `Close`.  `none` is the nil error. -/
structure OsEnv where
  renameErr : Option String := none
  openErr : Option String := none
  writeErr : Option (Nat × String) := none
  closeErr : Option String := none

/-- Function `os.Rename`: the file moves to `newpath`, replacing what was there; a
failed rename changes nothing. -/
def Rename (os : OsEnv) (fs : FS) (oldpath newpath : String) : Except String FS :=
  match fs oldpath with
  | none => .error ("rename " ++ oldpath ++ " " ++ newpath ++ ": no such file or directory")
  | some f =>
    match os.renameErr with
    | some err => .error err
    | none =>
      .ok (fun p => if p = newpath then some f else if p = oldpath then none else fs p)

/-- The `Write` and `Close` of `os.WriteFile` on the opened (created or truncated)
file of mode `mode`: a failed write leaves the bytes that reached the file and its
error is returned; otherwise the file holds `data` and the error of `Close` is
returned. -/
def WriteFile.write (os : OsEnv) (fs : FS) (name : String) (data : ByteSeq) (mode : Nat) :
    FS × Option String :=
  match os.writeErr with
  | some (n, err) => (fun p => if p = name then some ⟨data.take n, mode⟩ else fs p, some err)
  | none => (fun p => if p = name then some ⟨data, mode⟩ else fs p, os.closeErr)

/-- Function `os.WriteFile`: `OpenFile(name, O_WRONLY|O_CREATE|O_TRUNC, perm)`, `Write`,
`Close`.  The open creates the file with permission `perm` when it does not exist (the
umask of the process is taken to leave the owner bits) and otherwise truncates it,
keeping its mode, which needs the owner-write bit; a failed open changes nothing.
The result is the file system afterwards and the returned error. -/
def WriteFile (os : OsEnv) (fs : FS) (name : String) (data : ByteSeq) (perm : Nat) :
    FS × Option String :=
  match os.openErr with
  | some err => (fs, some err)
  | none =>
    match fs name with
    | none => WriteFile.write os fs name data perm
    | some f =>
      if f.mode / 128 % 2 = 1 then WriteFile.write os fs name data f.mode
      else (fs, some ("open " ++ name ++ ": permission denied"))

/-! ## `internal/ca/ca.go` -/

/-- Struct `CA`. -/
structure CA where
  cert : Certificate
  signer : PrivateKey
  pem : ByteSeq
deriving DecidableEq, Repr

/-- Struct `EndEntity`. -/
structure EndEntity where
  PKCS8 : ByteSeq
  Chain : ByteSeq
deriving DecidableEq, Repr

/-- Type `CertOption`: a function that updates the certificate template in place. -/
abbrev CertOption := Certificate → Certificate

/-- Verb `%q` of `fmt`, for a string that needs no escaping. -/
def fmtQ (s : String) : String := "\"" ++ s ++ "\""

/-- The `for` loop of `New` (lines 33-48).  `certDER` and `keyDER` are `none` for the
nil slice; the `Bytes` of a decoded block are never nil.  The result is `none` only
when the fuel runs out, which `New` excludes by its choice of fuel (`New_eq`). -/
def New.loop (lib : Lib) (path : String) :
    Nat → ByteSeq → Option ByteSeq → Option ByteSeq → Option (Except String (ByteSeq × ByteSeq))
  | 0, _, _, _ => none
  | fuel + 1, data, certDER, keyDER =>
    match lib.pemDecode data with
    | none =>
      some (.error ("file " ++ fmtQ path ++ " didn't contain a CERTIFICATE and PRIVATE KEY"))
    | some (block, data) =>
      let (certDER, keyDER) :=
        if block.Typ = "CERTIFICATE" then (some block.Bytes, keyDER)
        else if block.Typ = "PRIVATE KEY" then (certDER, some block.Bytes)
        else (certDER, keyDER)
      match keyDER, certDER with
      | some k, some c => some (.ok (c, k))
      | _, _ => New.loop lib path fuel data certDER keyDER

/-- Lines 50-64 of `New`: what follows the loop. -/
def New.finish (lib : Lib) (certDER keyDER : ByteSeq) : Except String CA :=
  match lib.ParseCertificate certDER with
  | .error err => .error err
  | .ok cert =>
    if !cert.BasicConstraintsValid || !cert.IsCA then
      .error "the given certificate is not a CA cert"
    else
      match lib.ParsePKCS8PrivateKey keyDER with
      | .error err => .error err
      | .ok signer =>
        let certPEM := lib.pemEncode ⟨"CERTIFICATE", certDER⟩
        .ok ⟨cert, signer, certPEM⟩

/-- Function `New`.  `none` stands for a loop that does not return. -/
def New (lib : Lib) (fs : FS) (path : String) : Option (Except String CA) :=
  match ReadFile fs path with
  | .error err => some (.error err)
  | .ok data =>
    match New.loop lib path (data.length + 1) data none none with
    | none => none
    | some (.error err) => some (.error err)
    | some (.ok (certDER, keyDER)) => some (New.finish lib certDER keyDER)

/-- Function `WithValidity`; `now` is the reading of `time.Now()` taken when the
option is built. -/
def WithValidity (now : Time) (d : Duration) : CertOption :=
  fun cert => { cert with NotBefore := now, NotAfter := now.Add d }

/-- Function `endEntityTemplate`. -/
def endEntityTemplate (lib : Lib) (env : SignEnv) (host : String) (opts : List CertOption) :
    Except String Certificate :=
  let limit := 1 <<< 128
  match env.randInt limit with
  | .error err => .error err
  | .ok serial =>
    match env.randRead 20 with
    | .error err => .error err
    | .ok skid =>
      let now := env.Now
      let tmpl : Certificate :=
        { SerialNumber := serial
          NotBefore := now
          NotAfter := lib.AddDate now 0 3 0
          Subject := { CommonName := host }
          KeyUsage := KeyUsageDigitalSignature
          ExtKeyUsage := [ExtKeyUsageServerAuth, ExtKeyUsageClientAuth]
          SubjectKeyId := skid
          DNSNames := [host] }
      .ok (opts.foldl (fun tmpl opt => opt tmpl) tmpl)

/-- Method `CA.Sign`.  `pem.Encode` into a `bytes.Buffer` and `Buffer.Write` return a
nil error for a block without headers, so the chain is the encoded leaf followed by
`c.pem`. -/
def Sign (lib : Lib) (env : SignEnv) (c : CA) (host : String) (opts : List CertOption) :
    Except String EndEntity :=
  match env.GenerateKey with
  | .error err => .error err
  | .ok subjectPriv =>
    match lib.MarshalPKCS8PrivateKey subjectPriv with
    | .error err => .error err
    | .ok der =>
      let pkcs8 := lib.pemEncode ⟨"PRIVATE KEY", der⟩
      match endEntityTemplate lib env host opts with
      | .error err => .error err
      | .ok tmpl =>
        match env.CreateCertificate tmpl c.cert (lib.Public subjectPriv) c.signer with
        | .error err => .error err
        | .ok der =>
          let chain := lib.pemEncode ⟨"CERTIFICATE", der⟩ ++ c.pem
          .ok { Chain := chain, PKCS8 := pkcs8 }

/-! ## `net/http`: the response writer seen by a handler -/

/-- An `http.Header` map: the list of values stored under each key (empty when the
key is absent). -/
abbrev Header := String → List String

/-- Method `Header.Set`. -/
def Header.Set (h : Header) (key value : String) : Header :=
  fun k => if k = key then [value] else h k

/-- Method `Header.Del`. -/
def Header.Del (h : Header) (key : String) : Header :=
  fun k => if k = key then [] else h k

/-- The bytes of a Go string given as text (UTF-8). -/
def utf8 (s : String) : ByteSeq :=
  (s.data.flatMap String.utf8EncodeChar).map UInt8.toNat

/-- Constant `http.StatusOK`. -/
def StatusOK : Nat := 200

/-- Constant `http.StatusBadRequest`. -/
def StatusBadRequest : Nat := 400

/-- Constant `http.StatusForbidden`. -/
def StatusForbidden : Nat := 403

/-- Constant `http.StatusMethodNotAllowed`. -/
def StatusMethodNotAllowed : Nat := 405

/-- Constant `http.StatusInternalServerError`. -/
def StatusInternalServerError : Nat := 500

/-- The outcome of each call of `ResponseWriter.Write`, by its position among the
calls: `none` when the whole slice is written, `some (n, err)` when the call fails
with `err` after `n` bytes. -/
abbrev WriteOracle := Nat → Option (Nat × String)

/-- An `http.ResponseWriter`: the header map, whether the status line went out, and
what went out: status, header snapshot and body. -/
structure ResponseWriter where
  header : Header
  wroteHeader : Bool
  status : Nat
  sentHeader : Header
  body : ByteSeq
  writes : Nat

/-- The response writer a handler is given for a new request. -/
def ResponseWriter.fresh : ResponseWriter :=
  { header := fun _ => [], wroteHeader := false, status := 0, sentHeader := fun _ => [],
    body := [], writes := 0 }

/-- Method `ResponseWriter.WriteHeader`: a second call is superfluous and ignored. -/
def ResponseWriter.WriteHeader (w : ResponseWriter) (statusCode : Nat) : ResponseWriter :=
  if w.wroteHeader then w
  else { w with wroteHeader := true, status := statusCode, sentHeader := w.header }

/-- Method `ResponseWriter.Write`: "if WriteHeader has not yet been called, Write calls
WriteHeader(http.StatusOK) before writing the data". -/
def ResponseWriter.Write (wo : WriteOracle) (w : ResponseWriter) (p : ByteSeq) :
    ResponseWriter × Option String :=
  let w := w.WriteHeader StatusOK
  match wo w.writes with
  | none => ({ w with body := w.body ++ p, writes := w.writes + 1 }, none)
  | some (n, err) => ({ w with body := w.body ++ p.take n, writes := w.writes + 1 }, some err)

/-- Function `http.Error`: plain-text headers, the status code, then the error text
and a newline (the result of that write is dropped). -/
def httpError (wo : WriteOracle) (w : ResponseWriter) (error : String) (code : Nat) :
    ResponseWriter :=
  let h := w.header.Del "Content-Length"
  let h := h.Set "Content-Type" "text/plain; charset=utf-8"
  let h := h.Set "X-Content-Type-Options" "nosniff"
  let w := { w with header := h }
  let w := w.WriteHeader code
  (w.Write wo (utf8 (error ++ "\n"))).1

/-! ## `cmd/private-ca-server/main.go` -/

/-- The `tls.ConnectionState` field the handler reads. -/
structure ConnectionState where
  VerifiedChains : List (List Certificate)

/-- The `http.Request` fields the handler reads; `TLS` is `none` for the nil pointer. -/
structure Request where
  Method : String
  TLS : Option ConnectionState

/-- Struct `handler` (the embedded `ServeMux` plays no part in `sign`). -/
structure handler where
  ca : CA

/-- The environment of one request: what `Sign` meets, and the outcome of the writes. -/
structure HandlerEnv where
  sign : SignEnv
  write : WriteOracle

/-- What one run of the handler did: the response writer at the end, the calls of
`Sign` (host and options) and the lines passed to `log.Printf`. -/
structure HandlerRun where
  w : ResponseWriter
  signCalls : List (String × List CertOption)
  log : List String

/-- The function returned by `handler.sign`, run on a request.  `none` is a run-time
panic (nil `r.TLS`, index out of range). -/
def handler.sign (lib : Lib) (env : HandlerEnv) (h : handler) (w : ResponseWriter)
    (r : Request) : Option HandlerRun :=
  if r.Method ≠ "GET" then
    some ⟨httpError env.write w "method not allowed" StatusMethodNotAllowed, [], []⟩
  else
    match r.TLS with
    | none => none
    | some tls =>
      if tls.VerifiedChains.length = 0 then
        some ⟨httpError env.write w "unauthorized" StatusForbidden, [], []⟩
      else
        match tls.VerifiedChains[0]? with
        | none => none
        | some chain =>
          match chain[0]? with
          | none => none
          | some leaf =>
            if leaf.DNSNames.length ≠ 1 then
              some ⟨httpError env.write w "expected exactly one DNS SAN" StatusBadRequest, [], []⟩
            else
              match leaf.DNSNames[0]? with
              | none => none
              | some host =>
                match Sign lib env.sign h.ca host [] with
                | .error err =>
                  some ⟨httpError env.write w err StatusInternalServerError, [(host, [])], []⟩
                | .ok ee =>
                  let w := { w with header := w.header.Set "Content-Type" "application/x-pem-file" }
                  match w.Write env.write ee.PKCS8 with
                  | (w, some err) =>
                    some ⟨httpError env.write w err StatusInternalServerError, [(host, [])], []⟩
                  | (w, none) =>
                    match w.Write env.write ee.Chain with
                    | (w, some err) =>
                      some ⟨httpError env.write w err StatusInternalServerError, [(host, [])], []⟩
                    | (w, none) =>
                      some ⟨w, [(host, [])], ["signed cert for " ++ host]⟩

/-! ## `cmd/private-ca-server/servercert.go` -/

/-- Struct `serverCert`; `keyPair` is `none` for the nil pointer.  The embedded
`sync.RWMutex` is rendered by the granularity of the steps of `Sys.step`. -/
structure serverCert where
  host : String
  ca : CA
  keyPair : Option TLSCertificate
deriving DecidableEq, Repr

/-- The environment of one call of `serverCert.sign`: the reading of `time.Now()`
taken by `WithValidity`, and what `Sign` meets. -/
structure TickEnv where
  optNow : Time
  sign : SignEnv

/-- Lines 57-64 of `serverCert.sign`: signing and pairing, before the lock is taken.
No field of `sc` is written. -/
def serverCert.signing (lib : Lib) (env : TickEnv) (sc : serverCert) :
    Except String TLSCertificate :=
  match Sign lib env.sign sc.ca sc.host [WithValidity env.optNow (24 * Hour)] with
  | .error err => .error err
  | .ok ee =>
    match lib.X509KeyPair ee.Chain ee.PKCS8 with
    | .error err => .error err
    | .ok kp => .ok kp

/-- Lines 65-68 of `serverCert.sign`: the critical section under the write lock. -/
def serverCert.swap (sc : serverCert) (kp : TLSCertificate) : serverCert :=
  { sc with keyPair := some kp }

/-- Method `serverCert.sign`: the receiver afterwards, and the returned error. -/
def serverCert.sign (lib : Lib) (env : TickEnv) (sc : serverCert) : serverCert × Option String :=
  match sc.signing lib env with
  | .error err => (sc, some err)
  | .ok kp => (sc.swap kp, none)

/-- Method `serverCert.Get`: the critical section under the read lock. -/
def serverCert.Get (sc : serverCert) : Option TLSCertificate × Option String :=
  (sc.keyPair, none)

/-- One iteration of the renewal goroutine of `NewServerCert` (lines 37-42): the
receiver afterwards and the line logged. -/
def serverCert.tick (lib : Lib) (env : TickEnv) (sc : serverCert) : serverCert × String :=
  match sc.sign lib env with
  | (sc, some err) => (sc, "failed to renew cert: " ++ err)
  | (sc, none) => (sc, "renewed server certificate")

/-- The renewal goroutine over a sequence of timer ticks: the `for` loop has no exit,
so every tick is served. -/
def serverCert.ticks (lib : Lib) : List TickEnv → serverCert → serverCert
  | [], sc => sc
  | env :: envs, sc => serverCert.ticks lib envs (sc.tick lib env).1

/-- Function `NewServerCert`, up to the start of the renewal goroutine. -/
def NewServerCert (lib : Lib) (env : TickEnv) (host : String) (ca : CA) :
    Except String serverCert :=
  let sc : serverCert := { host := host, ca := ca, keyPair := none }
  match sc.sign lib env with
  | (_, some err) => .error err
  | (sc, none) => .ok sc

/-- The atomic steps of a running server identity: the renewal goroutine signs
(lines 57-64), then swaps under the write lock (lines 65-68); a handshake reads under
the read lock. -/
inductive Event where
  | signing (env : TickEnv)
  | swap
  | get

/-- A running server identity: the shared `serverCert`, the local `kp` of the renewal
goroutine between signing and swap, and what the reads returned, oldest first. -/
structure Sys where
  sc : serverCert
  pending : Option TLSCertificate
  observed : List (Option TLSCertificate)

/-- One atomic step.  A `signing` step is taken by the single renewal goroutine, so
only when no swap is pending; a `swap` step only when one is. -/
def Sys.step (lib : Lib) (s : Sys) : Event → Sys
  | .signing env =>
    match s.pending with
    | some _ => s
    | none =>
      match s.sc.signing lib env with
      | .error _ => s
      | .ok kp => { s with pending := some kp }
  | .swap =>
    match s.pending with
    | none => s
    | some kp => { s with sc := s.sc.swap kp, pending := none }
  | .get => { s with observed := s.observed ++ [s.sc.Get.1] }

/-- A run of atomic steps. -/
def Sys.run (lib : Lib) (s : Sys) (evs : List Event) : Sys :=
  evs.foldl (Sys.step lib) s

/-- The system right after a successful `NewServerCert`. -/
def Sys.init (sc : serverCert) : Sys :=
  { sc := sc, pending := none, observed := [] }

/-! ## `cmd/private-ca-client/main.go` -/

/-- The `http.Response` fields the client reads; `Body` is the result of
`ioutil.ReadAll(r.Body)`. -/
structure Response where
  StatusCode : Nat
  Status : String
  Header : Header
  Body : Except String ByteSeq

/-- What the client did: the file-system state after the rename, when it succeeded,
and after the call of `os.WriteFile`, when it was made; the final state; the message
of `log.Fatalf` if the run ended there; and the standard output. -/
structure ClientRun where
  steps : List FS
  fs : FS
  fatal : Option String
  stdout : List String

/-- Lines 52-69 of the client's `main`, given the response `r` of `c.Get` and the
value `clientCert` of the flag `-pem`.  The texts of the fatal messages are shortened
to their constant part and the error. -/
def client.main (os : OsEnv) (clientCert : String) (r : Response) (fs : FS) : ClientRun :=
  if r.StatusCode ≠ StatusOK then
    ⟨[], fs, some ("Unexpected response status: " ++ r.Status), []⟩
  else
    let ct := r.Header "Content-Type"
    if ct.length ≠ 1 || ct[0]? ≠ some "application/x-pem-file" then
      ⟨[], fs, some "Got content-type, want application/x-pem-file", []⟩
    else
      match r.Body with
      | .error err => ⟨[], fs, some ("failed to read body: " ++ err), []⟩
      | .ok body =>
        match Rename os fs clientCert (clientCert ++ ".old") with
        | .error err => ⟨[], fs, some ("failed to rename " ++ fmtQ clientCert ++ ": " ++ err), []⟩
        | .ok fs =>
          match WriteFile os fs clientCert body 0o400 with
          | (fs', some err) =>
            ⟨[fs, fs'], fs', some ("failed to write " ++ fmtQ clientCert ++ ": " ++ err), []⟩
          | (fs', none) => ⟨[fs, fs'], fs', none, ["Wrote " ++ clientCert ++ "\n"]⟩

/-! ## Reading a file as a sequence of blocks -/

/-- The blocks that successive calls of `pem.Decode` give, each on the remainder left
by the previous one, until the nil block. -/
def pemBlocks.go (decode : ByteSeq → Option (Block × ByteSeq)) : Nat → ByteSeq → List Block
  | 0, _ => []
  | fuel + 1, data =>
    match decode data with
    | none => []
    | some (block, rest) => block :: pemBlocks.go decode fuel rest

/-- The blocks of a file, in order. -/
def pemBlocks (lib : Lib) (data : ByteSeq) : List Block :=
  pemBlocks.go lib.pemDecode (data.length + 1) data

/-- The loop of `New` (lines 33-48) on the block sequence of the file instead of its
bytes: the same switch and the same exit test, one block per iteration. -/
def New.scan (path : String) :
    List Block → Option ByteSeq → Option ByteSeq → Except String (ByteSeq × ByteSeq)
  | [], _, _ =>
    .error ("file " ++ fmtQ path ++ " didn't contain a CERTIFICATE and PRIVATE KEY")
  | block :: blocks, certDER, keyDER =>
    let (certDER, keyDER) :=
      if block.Typ = "CERTIFICATE" then (some block.Bytes, keyDER)
      else if block.Typ = "PRIVATE KEY" then (certDER, some block.Bytes)
      else (certDER, keyDER)
    match keyDER, certDER with
    | some k, some c => .ok (c, k)
    | _, _ => New.scan path blocks certDER keyDER

/-- A block that `New` looks at: a CERTIFICATE or a PRIVATE KEY block. -/
def Block.relevant (b : Block) : Bool :=
  b.Typ = "CERTIFICATE" || b.Typ = "PRIVATE KEY"

/-- The PEM codec returns what was encoded: decoding an encoded CERTIFICATE or
PRIVATE KEY block followed by `rest` gives the block and `rest`, and the empty input
holds no block. -/
def Lib.PemRoundTrip (lib : Lib) : Prop :=
  (∀ b rest, b.relevant = true → lib.pemDecode (lib.pemEncode b ++ rest) = some (b, rest)) ∧
  lib.pemDecode [] = none

/-- The environments of the signing steps of a run, oldest first. -/
def Event.envs : List Event → List TickEnv
  | [] => []
  | .signing env :: evs => env :: Event.envs evs
  | _ :: evs => Event.envs evs

/-! ## A concrete instance of the library, for evaluation

A length-prefixed block format stands in for PEM: a block is its type tag, the length
of its payload, and the payload. -/

/-- Block type of a tag. -/
def demoType : Nat → String
  | 1 => "CERTIFICATE"
  | 2 => "PRIVATE KEY"
  | _ => "OTHER"

/-- Tag of a block type. -/
def demoTag (t : String) : Nat :=
  if t = "CERTIFICATE" then 1 else if t = "PRIVATE KEY" then 2 else 0

/-- Decoder of the length-prefixed format. -/
def demoDecode : ByteSeq → Option (Block × ByteSeq)
  | tag :: len :: tl =>
    if len ≤ tl.length then some (⟨demoType tag, tl.take len⟩, tl.drop len) else none
  | _ => none

/-- Encoder of the length-prefixed format. -/
def demoEncode (b : Block) : ByteSeq :=
  demoTag b.Typ :: b.Bytes.length :: b.Bytes

/-- Certificates of the instance: the first byte carries the two basic-constraint
flags, the rest is one DNS name per byte. -/
def demoParseCertificate : ByteSeq → Except String Certificate
  | [] => .error "x509: malformed certificate"
  | flags :: names =>
    .ok { BasicConstraintsValid := decide (flags / 2 % 2 = 1)
          IsCA := decide (flags % 2 = 1)
          DNSNames := names.map (fun n => String.mk [Char.ofNat n]) }

/-- Keys of the instance: one byte. -/
def demoParseKey : ByteSeq → Except String PrivateKey
  | [k] => .ok k
  | _ => .error "x509: failed to parse private key"

/-- Pairing of the instance: the CERTIFICATE payloads of the chain and the key of the
first block of the key input. -/
def demoKeyPair (certPEMBlock keyPEMBlock : ByteSeq) : Except String TLSCertificate :=
  let certs := ((pemBlocks.go demoDecode (certPEMBlock.length + 1) certPEMBlock).filter
    (fun b => b.Typ = "CERTIFICATE")).map Block.Bytes
  if certs = [] then .error "tls: failed to find any PEM data in certificate input"
  else
    match demoDecode keyPEMBlock with
    | none => .error "tls: failed to find any PEM data in key input"
    | some (b, _) =>
      match demoParseKey b.Bytes with
      | .error err => .error err
      | .ok k => .ok ⟨certs, k⟩

/-- The concrete library instance. -/
def demoLib : Lib where
  pemDecode := demoDecode
  pemDecode_rest := by
    intro d b r h
    match d, h with
    | tag :: len :: tl, h =>
      simp only [demoDecode] at h
      split at h
      · simp only [Option.some.injEq, Prod.mk.injEq] at h
        rw [← h.2]
        simp only [List.length_drop, List.length_cons]
        omega
      · cases h
    | [], h => simp [demoDecode] at h
    | [_], h => simp [demoDecode] at h
  pemEncode := demoEncode
  ParseCertificate := demoParseCertificate
  ParsePKCS8PrivateKey := demoParseKey
  MarshalPKCS8PrivateKey := fun k => .ok [k]
  Public := fun k => k + 1000
  X509KeyPair := demoKeyPair
  AddDate := fun t years months days => t + ((years * 12 + months) * 30 + days) * (24 * Hour)

/-- An environment in which key generation, the random source and the signature
succeed; `k` is the generated key. -/
def demoEnv (k : Nat) : SignEnv where
  GenerateKey := .ok k
  randInt := fun _ => .ok (k + 7)
  randRead := fun n => .ok (List.replicate n k)
  Now := 1000
  CreateCertificate := fun tmpl _ pub _ => .ok (pub :: tmpl.DNSNames.map String.length)

/-- An environment in which key generation fails. -/
def demoFailEnv : SignEnv where
  GenerateKey := .error "entropy source failed"
  randInt := fun _ => .ok 7
  randRead := fun n => .ok (List.replicate n 0)
  Now := 1000
  CreateCertificate := fun _ _ _ _ => .error "unreachable"

/-- A CA file of the instance: a CA certificate followed by its key. -/
def demoCAFile : ByteSeq :=
  demoEncode ⟨"CERTIFICATE", [3]⟩ ++ demoEncode ⟨"PRIVATE KEY", [42]⟩

/-- A file with two CERTIFICATE blocks before the key. -/
def demoTwoCertFile : ByteSeq :=
  demoEncode ⟨"CERTIFICATE", [3, 65]⟩ ++ demoEncode ⟨"CERTIFICATE", [3, 66]⟩ ++
    demoEncode ⟨"PRIVATE KEY", [42]⟩

/-- A file with a second PRIVATE KEY block and a second CERTIFICATE block after the
first pair. -/
def demoTrailingFile : ByteSeq :=
  demoCAFile ++ demoEncode ⟨"PRIVATE KEY", [43]⟩ ++ demoEncode ⟨"CERTIFICATE", [0]⟩

/-- A file system holding the files above and a client credential. -/
def demoFS : FS := fun p =>
  if p = "ca.pem" then some ⟨demoCAFile, 0o400⟩
  else if p = "two.pem" then some ⟨demoTwoCertFile, 0o400⟩
  else if p = "trailing.pem" then some ⟨demoTrailingFile, 0o400⟩
  else if p = "nocert.pem" then some ⟨demoEncode ⟨"PRIVATE KEY", [42]⟩, 0o400⟩
  else if p = "nokey.pem" then some ⟨demoEncode ⟨"CERTIFICATE", [3]⟩, 0o400⟩
  else if p = "leaf.pem" then
    some ⟨demoEncode ⟨"CERTIFICATE", [2]⟩ ++ demoEncode ⟨"PRIVATE KEY", [42]⟩, 0o400⟩
  else if p = "client.pem" then some ⟨[9, 9, 9], 0o400⟩
  else none

/-- A second file system: under `ca.pem`, blocks of another type come before and
between the certificate and the key. -/
def demoFS' : FS := fun p =>
  if p = "ca.pem" then
    some ⟨demoEncode ⟨"OTHER", [7]⟩ ++ demoEncode ⟨"CERTIFICATE", [3]⟩ ++
      demoEncode ⟨"OTHER", []⟩ ++ demoEncode ⟨"PRIVATE KEY", [42]⟩, 0o400⟩
  else none

/-- A third file system: under `ca.pem`, the key, then the certificate. -/
def demoFS'' : FS := fun p =>
  if p = "ca.pem" then
    some ⟨demoEncode ⟨"PRIVATE KEY", [42]⟩ ++ demoEncode ⟨"CERTIFICATE", [3]⟩, 0o400⟩
  else none

/-- The CA loaded from `demoCAFile`. -/
def demoCA : CA :=
  { cert := { BasicConstraintsValid := true, IsCA := true }, signer := 42,
    pem := demoEncode ⟨"CERTIFICATE", [3]⟩ }

/-- The credential `o` was paired by `tls.X509KeyPair` from the chain and the key of
the result of one and the same call of `Sign`, made for `host` with the option
`WithValidity(24 * time.Hour)` in one of the environments `envs`. -/
def FromOneSign (lib : Lib) (host : String) (ca : CA) (envs : List TickEnv)
    (o : Option TLSCertificate) : Prop :=
  ∃ env ∈ envs, ∃ ee kp,
    Sign lib env.sign ca host [WithValidity env.optNow (24 * Hour)] = .ok ee ∧
    lib.X509KeyPair ee.Chain ee.PKCS8 = .ok kp ∧ o = some kp

/-- The concrete library with a pairing that always fails. -/
def demoLibMismatch : Lib :=
  { demoLib with X509KeyPair := fun _ _ => .error "tls: private key does not match public key" }

/-- The request of a client whose verified leaf carries the one name `a.example`. -/
def demoRequest : Request :=
  ⟨"GET", some ⟨[[{ DNSNames := ["a.example"] }]]⟩⟩

/-- The run of the handler on `demoRequest` with the CA `demoCA`, in the environment
`demoEnv 5` with writes that go through. -/
def demoRun : HandlerRun :=
  { w :=
      { header := Header.Set (fun _ => []) "Content-Type" "application/x-pem-file"
        wroteHeader := true
        status := 200
        sentHeader := Header.Set (fun _ => []) "Content-Type" "application/x-pem-file"
        body := [2, 1, 5, 1, 2, 1005, 9, 1, 1, 3]
        writes := 2 }
    signCalls := [("a.example", [])]
    log := ["signed cert for a.example"] }

/-- A renewal response that the client accepts. -/
def demoResponse : Response :=
  { StatusCode := 200
    Status := "200 OK"
    Header := Header.Set (fun _ => []) "Content-Type" "application/x-pem-file"
    Body := .ok [2, 1, 5, 1, 2, 1005, 9, 1, 1, 3] }

/-- A renewal response that the client refuses. -/
def demoRefusal : Response :=
  { StatusCode := 403
    Status := "403 Forbidden"
    Header := Header.Set (fun _ => []) "Content-Type" "text/plain; charset=utf-8"
    Body := .ok [117, 110, 97, 117, 116, 104, 111, 114, 105, 122, 101, 100, 10] }

/-- An operating system whose calls all go through. -/
def demoOs : OsEnv := {}

/-- An operating system whose write fails before any byte reaches the file. -/
def demoOsFull : OsEnv :=
  { writeErr := some (0, "write client.pem: no space left on device") }

/-- An operating system that refuses the rename. -/
def demoOsDenied : OsEnv :=
  { renameErr := some "rename client.pem client.pem.old: permission denied" }

/-- The server identity of `ca.example` after a successful `NewServerCert`. -/
def demoServerCert : serverCert :=
  { host := "ca.example", ca := demoCA, keyPair := some ⟨[[1005, 10], [3]], 5⟩ }

/-- A run of the server identity: reads around a renewal that succeeds and one that
fails. -/
def demoEvents : List Event :=
  [.get, .signing ⟨88, demoEnv 6⟩, .get, .swap, .get, .signing ⟨99, demoFailEnv⟩, .swap, .get]

/-! ## The loop of `New` and the block sequence of the file -/

theorem pemBlocks_go_fuel (lib : Lib) :
    ∀ (fuel fuel' : Nat) (data : ByteSeq), data.length < fuel → data.length < fuel' →
      pemBlocks.go lib.pemDecode fuel data = pemBlocks.go lib.pemDecode fuel' data := by
  intro fuel
  induction fuel with
  | zero => intro fuel' data h; omega
  | succ n ih =>
    intro fuel' data h h'
    cases fuel' with
    | zero => omega
    | succ m =>
      simp only [pemBlocks.go]
      cases hd : lib.pemDecode data with
      | none => rfl
      | some br =>
        obtain ⟨b, r⟩ := br
        have hr := lib.pemDecode_rest data b r hd
        simp only
        rw [ih m r (by omega) (by omega)]

theorem pemBlocks_none (lib : Lib) (data : ByteSeq) (h : lib.pemDecode data = none) :
    pemBlocks lib data = [] := by
  simp [pemBlocks, pemBlocks.go, h]

theorem pemBlocks_some (lib : Lib) (data : ByteSeq) (b : Block) (rest : ByteSeq)
    (h : lib.pemDecode data = some (b, rest)) :
    pemBlocks lib data = b :: pemBlocks lib rest := by
  have hr := lib.pemDecode_rest data b rest h
  unfold pemBlocks
  rw [pemBlocks_go_fuel lib (rest.length + 1) data.length rest (by omega) hr]
  conv_lhs => rw [pemBlocks.go]
  simp only [h]

theorem New_loop_eq_scan (lib : Lib) (path : String) :
    ∀ (fuel : Nat) (data : ByteSeq) (certDER keyDER : Option ByteSeq), data.length < fuel →
      New.loop lib path fuel data certDER keyDER =
        some (New.scan path (pemBlocks lib data) certDER keyDER) := by
  intro fuel
  induction fuel with
  | zero => intro data c k h; omega
  | succ n ih =>
    intro data c k h
    cases hd : lib.pemDecode data with
    | none => simp [New.loop, hd, pemBlocks_none lib data hd, New.scan]
    | some br =>
      obtain ⟨b, r⟩ := br
      have hr := lib.pemDecode_rest data b r hd
      have hrec := fun c' k' => ih r c' k' (by omega)
      rw [pemBlocks_some lib data b r hd]
      simp only [New.loop, hd, New.scan]
      by_cases h1 : b.Typ = "CERTIFICATE"
      · simp only [h1, if_true]
        cases k <;> simp [hrec]
      · by_cases h2 : b.Typ = "PRIVATE KEY"
        · simp only [h1, h2, if_true, if_false]
          cases c <;> simp [hrec]
        · simp only [h1, h2, if_false]
          cases k <;> cases c <;> simp [hrec]

/-- The function `New` in terms of the block sequence of the file: the loop always
returns. -/
theorem New_eq (lib : Lib) (fs : FS) (path : String) (data : ByteSeq)
    (h : ReadFile fs path = .ok data) :
    New lib fs path =
      some (match New.scan path (pemBlocks lib data) none none with
        | .error err => .error err
        | .ok (certDER, keyDER) => New.finish lib certDER keyDER) := by
  simp only [New, h, New_loop_eq_scan lib path (data.length + 1) data none none (by omega)]
  cases New.scan path (pemBlocks lib data) none none with
  | error e => rfl
  | ok ck => rfl

/-! ## The loop on a block sequence -/

theorem scan_cons_cert (path : String) (b : Block) (bs : List Block) (c k : Option ByteSeq)
    (h : b.Typ = "CERTIFICATE") :
    New.scan path (b :: bs) c k =
      match k with
      | some k => .ok (b.Bytes, k)
      | none => New.scan path bs (some b.Bytes) none := by
  cases k <;> simp [New.scan, h]

theorem scan_cons_key (path : String) (b : Block) (bs : List Block) (c k : Option ByteSeq)
    (h : b.Typ = "PRIVATE KEY") :
    New.scan path (b :: bs) c k =
      match c with
      | some c => .ok (c, b.Bytes)
      | none => New.scan path bs none (some b.Bytes) := by
  have h1 : b.Typ ≠ "CERTIFICATE" := by rw [h]; decide
  cases c <;> simp [New.scan, h, h1]

theorem scan_cons_other (path : String) (b : Block) (bs : List Block) (c k : Option ByteSeq)
    (h1 : b.Typ ≠ "CERTIFICATE") (h2 : b.Typ ≠ "PRIVATE KEY") (hck : c = none ∨ k = none) :
    New.scan path (b :: bs) c k = New.scan path bs c k := by
  rcases hck with h | h
  · subst h; cases k <;> simp [New.scan, h1, h2]
  · subst h; cases c <;> simp [New.scan, h1, h2]

theorem scan_no_cert (path : String) (bs : List Block) (k : Option ByteSeq)
    (h : ∀ b ∈ bs, b.Typ ≠ "CERTIFICATE") :
    New.scan path bs none k =
      .error ("file " ++ fmtQ path ++ " didn't contain a CERTIFICATE and PRIVATE KEY") := by
  induction bs generalizing k with
  | nil => rfl
  | cons b bs ih =>
    have hb := h b (List.mem_cons_self _ _)
    have hbs : ∀ x ∈ bs, x.Typ ≠ "CERTIFICATE" := fun x hx => h x (List.mem_cons_of_mem _ hx)
    by_cases h2 : b.Typ = "PRIVATE KEY"
    · rw [scan_cons_key path b bs none k h2]; exact ih _ hbs
    · rw [scan_cons_other path b bs none k hb h2 (Or.inl rfl)]; exact ih _ hbs

theorem scan_no_key (path : String) (bs : List Block) (c : Option ByteSeq)
    (h : ∀ b ∈ bs, b.Typ ≠ "PRIVATE KEY") :
    New.scan path bs c none =
      .error ("file " ++ fmtQ path ++ " didn't contain a CERTIFICATE and PRIVATE KEY") := by
  induction bs generalizing c with
  | nil => rfl
  | cons b bs ih =>
    have hb := h b (List.mem_cons_self _ _)
    have hbs : ∀ x ∈ bs, x.Typ ≠ "PRIVATE KEY" := fun x hx => h x (List.mem_cons_of_mem _ hx)
    by_cases h1 : b.Typ = "CERTIFICATE"
    · rw [scan_cons_cert path b bs c none h1]; exact ih _ hbs
    · rw [scan_cons_other path b bs c none h1 hb (Or.inr rfl)]; exact ih _ hbs

theorem scan_ok_mem (path : String) (bs : List Block) :
    ∀ (c0 k0 : Option ByteSeq) (c k : ByteSeq), New.scan path bs c0 k0 = .ok (c, k) →
      (c0 = some c ∨ ⟨"CERTIFICATE", c⟩ ∈ bs) ∧ (k0 = some k ∨ ⟨"PRIVATE KEY", k⟩ ∈ bs) := by
  induction bs with
  | nil => intro c0 k0 c k h; simp [New.scan] at h
  | cons b bs ih =>
    intro c0 k0 c k h
    obtain ⟨t, x⟩ := b
    by_cases h1 : t = "CERTIFICATE"
    · subst h1
      rw [scan_cons_cert path _ bs c0 k0 rfl] at h
      cases k0 with
      | some k' =>
        simp only [Except.ok.injEq, Prod.mk.injEq] at h
        obtain ⟨hx, hk⟩ := h
        subst hx; subst hk
        exact ⟨Or.inr (List.mem_cons_self _ _), Or.inl rfl⟩
      | none =>
        obtain ⟨hc, hk⟩ := ih _ _ c k h
        refine ⟨?_, ?_⟩
        · rcases hc with hc | hc
          · simp only [Option.some.injEq] at hc
            subst hc
            exact Or.inr (List.mem_cons_self _ _)
          · exact Or.inr (List.mem_cons_of_mem _ hc)
        · rcases hk with hk | hk
          · cases hk
          · exact Or.inr (List.mem_cons_of_mem _ hk)
    · by_cases h2 : t = "PRIVATE KEY"
      · subst h2
        rw [scan_cons_key path _ bs c0 k0 rfl] at h
        cases c0 with
        | some c' =>
          simp only [Except.ok.injEq, Prod.mk.injEq] at h
          obtain ⟨hc, hx⟩ := h
          subst hc; subst hx
          exact ⟨Or.inl rfl, Or.inr (List.mem_cons_self _ _)⟩
        | none =>
          obtain ⟨hc, hk⟩ := ih _ _ c k h
          refine ⟨?_, ?_⟩
          · rcases hc with hc | hc
            · cases hc
            · exact Or.inr (List.mem_cons_of_mem _ hc)
          · rcases hk with hk | hk
            · simp only [Option.some.injEq] at hk
              subst hk
              exact Or.inr (List.mem_cons_self _ _)
            · exact Or.inr (List.mem_cons_of_mem _ hk)
      · cases c0 with
        | none =>
          rw [scan_cons_other path _ bs none k0 h1 h2 (Or.inl rfl)] at h
          obtain ⟨hc, hk⟩ := ih _ _ c k h
          exact ⟨hc.imp id (List.mem_cons_of_mem _), hk.imp id (List.mem_cons_of_mem _)⟩
        | some c' =>
          cases k0 with
          | none =>
            rw [scan_cons_other path _ bs (some c') none h1 h2 (Or.inr rfl)] at h
            obtain ⟨hc, hk⟩ := ih _ _ c k h
            exact ⟨hc.imp id (List.mem_cons_of_mem _), hk.imp id (List.mem_cons_of_mem _)⟩
          | some k' =>
            simp only [New.scan, h1, h2, if_false, Except.ok.injEq, Prod.mk.injEq] at h
            obtain ⟨hc, hk⟩ := h
            subst hc; subst hk
            exact ⟨Or.inl rfl, Or.inl rfl⟩

theorem scan_error (path : String) (bs : List Block) :
    ∀ (c0 k0 : Option ByteSeq) (e : String), (c0 = none ∨ k0 = none) →
      New.scan path bs c0 k0 = .error e →
      (c0 = none ∧ ∀ b ∈ bs, b.Typ ≠ "CERTIFICATE") ∨
      (k0 = none ∧ ∀ b ∈ bs, b.Typ ≠ "PRIVATE KEY") := by
  induction bs with
  | nil =>
    intro c0 k0 e hck _
    rcases hck with h | h
    · exact Or.inl ⟨h, by simp⟩
    · exact Or.inr ⟨h, by simp⟩
  | cons b bs ih =>
    intro c0 k0 e hck h
    by_cases h1 : b.Typ = "CERTIFICATE"
    · have hk : b.Typ ≠ "PRIVATE KEY" := by rw [h1]; decide
      rw [scan_cons_cert path b bs c0 k0 h1] at h
      cases k0 with
      | some k' => cases h
      | none =>
        rcases ih _ _ e (Or.inr rfl) h with h' | h'
        · cases h'.1
        · refine Or.inr ⟨rfl, ?_⟩
          intro x hx
          rcases List.mem_cons.1 hx with hx | hx
          · subst hx; exact hk
          · exact h'.2 x hx
    · by_cases h2 : b.Typ = "PRIVATE KEY"
      · rw [scan_cons_key path b bs c0 k0 h2] at h
        cases c0 with
        | some c' => cases h
        | none =>
          rcases ih _ _ e (Or.inl rfl) h with h' | h'
          · refine Or.inl ⟨rfl, ?_⟩
            intro x hx
            rcases List.mem_cons.1 hx with hx | hx
            · subst hx; exact h1
            · exact h'.2 x hx
          · cases h'.1
      · rw [scan_cons_other path b bs c0 k0 h1 h2 hck] at h
        rcases ih _ _ e hck h with h' | h'
        · refine Or.inl ⟨h'.1, ?_⟩
          intro x hx
          rcases List.mem_cons.1 hx with hx | hx
          · subst hx; exact h1
          · exact h'.2 x hx
        · refine Or.inr ⟨h'.1, ?_⟩
          intro x hx
          rcases List.mem_cons.1 hx with hx | hx
          · subst hx; exact h2
          · exact h'.2 x hx

theorem scan_filter (path : String) (bs : List Block) :
    ∀ (c k : Option ByteSeq), (c = none ∨ k = none) →
      New.scan path (bs.filter Block.relevant) c k = New.scan path bs c k := by
  induction bs with
  | nil => intro c k _; rfl
  | cons b bs ih =>
    intro c k hck
    by_cases h1 : b.Typ = "CERTIFICATE"
    · have hr : b.relevant = true := by simp [Block.relevant, h1]
      rw [List.filter_cons_of_pos hr, scan_cons_cert path b _ c k h1,
        scan_cons_cert path b bs c k h1]
      cases k with
      | some k' => rfl
      | none => exact ih _ _ (Or.inr rfl)
    · by_cases h2 : b.Typ = "PRIVATE KEY"
      · have hr : b.relevant = true := by simp [Block.relevant, h2]
        rw [List.filter_cons_of_pos hr, scan_cons_key path b _ c k h2,
          scan_cons_key path b bs c k h2]
        cases c with
        | some c' => rfl
        | none => exact ih _ _ (Or.inl rfl)
      · have hr : ¬ b.relevant = true := by simp [Block.relevant, h1, h2]
        rw [List.filter_cons_of_neg hr, scan_cons_other path b bs c k h1 h2 hck]
        exact ih c k hck

/-! ## `New`: what it rejects and what it accepts -/

/-- C6.  `New` returns an error and no issuer for a file without CERTIFICATE block,
for a file without PRIVATE KEY block, and for a file whose certificates all lack the
CA flag or valid basic constraints (with the message "the given certificate is not a
CA cert" when the one certificate of the file parses and a key is present); its
result depends only on the CERTIFICATE and PRIVATE KEY blocks of the file, the blocks
of other types being skipped; and the two blocks are accepted in either order. -/
theorem New_rejects_missing_block_or_non_CA (lib : Lib) (fs fs' : FS) (path : String)
    (data data' : ByteSeq) (h : ReadFile fs path = .ok data)
    (h' : ReadFile fs' path = .ok data') :
    ((∀ b ∈ pemBlocks lib data, b.Typ ≠ "CERTIFICATE") →
      New lib fs path = some (.error
        ("file " ++ fmtQ path ++ " didn't contain a CERTIFICATE and PRIVATE KEY"))) ∧
    ((∀ b ∈ pemBlocks lib data, b.Typ ≠ "PRIVATE KEY") →
      New lib fs path = some (.error
        ("file " ++ fmtQ path ++ " didn't contain a CERTIFICATE and PRIVATE KEY"))) ∧
    ((∀ b ∈ pemBlocks lib data, b.Typ = "CERTIFICATE" →
        ∀ cert, lib.ParseCertificate b.Bytes = .ok cert →
          cert.IsCA = false ∨ cert.BasicConstraintsValid = false) →
      ∃ err, New lib fs path = some (.error err)) ∧
    (∀ c cert,
      (pemBlocks lib data).filter (fun b => decide (b.Typ = "CERTIFICATE")) =
        [⟨"CERTIFICATE", c⟩] →
      (∃ b ∈ pemBlocks lib data, b.Typ = "PRIVATE KEY") →
      lib.ParseCertificate c = .ok cert →
      (cert.IsCA = false ∨ cert.BasicConstraintsValid = false) →
      New lib fs path = some (.error "the given certificate is not a CA cert")) ∧
    ((pemBlocks lib data).filter Block.relevant = (pemBlocks lib data').filter Block.relevant →
      New lib fs path = New lib fs' path) ∧
    (∀ c k,
      pemBlocks lib data = [⟨"CERTIFICATE", c⟩, ⟨"PRIVATE KEY", k⟩] →
      pemBlocks lib data' = [⟨"PRIVATE KEY", k⟩, ⟨"CERTIFICATE", c⟩] →
      New lib fs path = some (New.finish lib c k) ∧
      New lib fs' path = some (New.finish lib c k)) := by
  have hflags : ∀ c k cert, lib.ParseCertificate c = .ok cert →
      (cert.IsCA = false ∨ cert.BasicConstraintsValid = false) →
      New.finish lib c k = .error "the given certificate is not a CA cert" := by
    intro c k cert hp hf
    rcases hf with hf | hf <;> simp [New.finish, hp, hf]
  refine ⟨?_, ?_, ?_, ?_, ?_, ?_⟩
  · intro hb
    rw [New_eq lib fs path data h, scan_no_cert path _ none hb]
  · intro hb
    rw [New_eq lib fs path data h, scan_no_key path _ none hb]
  · intro hb
    rw [New_eq lib fs path data h]
    cases hs : New.scan path (pemBlocks lib data) none none with
    | error e => exact ⟨e, rfl⟩
    | ok ck =>
      obtain ⟨c, k⟩ := ck
      have hm := (scan_ok_mem path _ none none c k hs).1
      rcases hm with hm | hm
      · cases hm
      · cases hp : lib.ParseCertificate c with
        | error e => exact ⟨e, by simp [New.finish, hp]⟩
        | ok cert =>
          exact ⟨"the given certificate is not a CA cert",
            by simp only [hflags c k cert hp (hb _ hm rfl cert hp)]⟩
  · intro c cert hf hk hp hfl
    rw [New_eq lib fs path data h]
    cases hs : New.scan path (pemBlocks lib data) none none with
    | error e =>
      exfalso
      rcases scan_error path _ none none e (Or.inl rfl) hs with hn | hn
      · have hmem : (⟨"CERTIFICATE", c⟩ : Block) ∈
            (pemBlocks lib data).filter (fun b => decide (b.Typ = "CERTIFICATE")) := by
          rw [hf]; exact List.mem_singleton.2 rfl
        exact hn.2 _ (List.mem_filter.1 hmem).1 rfl
      · obtain ⟨b, hb, hbk⟩ := hk
        exact hn.2 b hb hbk
    | ok ck =>
      obtain ⟨c', k'⟩ := ck
      have hm := (scan_ok_mem path _ none none c' k' hs).1
      rcases hm with hm | hm
      · cases hm
      · have hmem : (⟨"CERTIFICATE", c'⟩ : Block) ∈
            (pemBlocks lib data).filter (fun b => decide (b.Typ = "CERTIFICATE")) :=
          List.mem_filter.2 ⟨hm, by simp⟩
        rw [hf] at hmem
        have hc : c' = c := by
          have := List.mem_singleton.1 hmem
          simpa using this
        subst hc
        simp only [hflags c' k' cert hp hfl]
  · intro hf
    rw [New_eq lib fs path data h, New_eq lib fs' path data' h',
      ← scan_filter path (pemBlocks lib data) none none (Or.inl rfl),
      ← scan_filter path (pemBlocks lib data') none none (Or.inl rfl), hf]
  · intro c k hd hd'
    rw [New_eq lib fs path data h, New_eq lib fs' path data' h', hd, hd']
    exact ⟨rfl, rfl⟩

/-- Witness of C6 on the concrete library: a key-only file, a certificate-only file
and a file with a non-CA certificate are rejected; a file with blocks of another type
loads the same CA as the plain file, and so does the file with the key first. -/
theorem New_rejects_missing_block_or_non_CA_witness :
    New demoLib demoFS "nocert.pem" = some (.error
      ("file " ++ fmtQ "nocert.pem" ++ " didn't contain a CERTIFICATE and PRIVATE KEY")) ∧
    New demoLib demoFS "nokey.pem" = some (.error
      ("file " ++ fmtQ "nokey.pem" ++ " didn't contain a CERTIFICATE and PRIVATE KEY")) ∧
    (∃ err, New demoLib demoFS "leaf.pem" = some (.error err)) ∧
    New demoLib demoFS "leaf.pem" = some (.error "the given certificate is not a CA cert") ∧
    New demoLib demoFS "ca.pem" = New demoLib demoFS' "ca.pem" ∧
    (New demoLib demoFS "ca.pem" = some (New.finish demoLib [3] [42]) ∧
      New demoLib demoFS'' "ca.pem" = some (New.finish demoLib [3] [42])) := by
  have hleaf : ∀ b ∈ pemBlocks demoLib
      (demoEncode ⟨"CERTIFICATE", [2]⟩ ++ demoEncode ⟨"PRIVATE KEY", [42]⟩),
      b.Typ = "CERTIFICATE" → ∀ cert, demoLib.ParseCertificate b.Bytes = .ok cert →
        cert.IsCA = false ∨ cert.BasicConstraintsValid = false := by
    intro b hb ht cert hp
    have hb' : b = ⟨"CERTIFICATE", [2]⟩ ∨ b = ⟨"PRIVATE KEY", [42]⟩ := by
      have : pemBlocks demoLib
          (demoEncode ⟨"CERTIFICATE", [2]⟩ ++ demoEncode ⟨"PRIVATE KEY", [42]⟩) =
          [⟨"CERTIFICATE", [2]⟩, ⟨"PRIVATE KEY", [42]⟩] := by decide
      rw [this] at hb
      simpa using hb
    rcases hb' with hb' | hb'
    · subst hb'
      simp only [demoLib, demoParseCertificate, Except.ok.injEq] at hp
      subst hp
      exact Or.inl (by decide)
    · subst hb'
      exact absurd ht (by decide)
  exact ⟨(New_rejects_missing_block_or_non_CA demoLib demoFS demoFS "nocert.pem"
        (demoEncode ⟨"PRIVATE KEY", [42]⟩) _ rfl rfl).1 (by decide),
    (New_rejects_missing_block_or_non_CA demoLib demoFS demoFS "nokey.pem"
        (demoEncode ⟨"CERTIFICATE", [3]⟩) _ rfl rfl).2.1 (by decide),
    (New_rejects_missing_block_or_non_CA demoLib demoFS demoFS "leaf.pem"
        (demoEncode ⟨"CERTIFICATE", [2]⟩ ++ demoEncode ⟨"PRIVATE KEY", [42]⟩) _ rfl rfl).2.2.1
        hleaf,
    (New_rejects_missing_block_or_non_CA demoLib demoFS demoFS "leaf.pem"
        (demoEncode ⟨"CERTIFICATE", [2]⟩ ++ demoEncode ⟨"PRIVATE KEY", [42]⟩) _ rfl rfl).2.2.2.1
        [2] { BasicConstraintsValid := true, IsCA := false } (by decide)
        ⟨⟨"PRIVATE KEY", [42]⟩, by decide, rfl⟩ rfl (Or.inl rfl),
    (New_rejects_missing_block_or_non_CA demoLib demoFS demoFS' "ca.pem" demoCAFile
        (demoEncode ⟨"OTHER", [7]⟩ ++ demoEncode ⟨"CERTIFICATE", [3]⟩ ++
          demoEncode ⟨"OTHER", []⟩ ++ demoEncode ⟨"PRIVATE KEY", [42]⟩) rfl rfl).2.2.2.2.1
        (by decide),
    (New_rejects_missing_block_or_non_CA demoLib demoFS demoFS'' "ca.pem" demoCAFile
        (demoEncode ⟨"PRIVATE KEY", [42]⟩ ++ demoEncode ⟨"CERTIFICATE", [3]⟩) rfl rfl).2.2.2.2.2
        [3] [42] (by decide) (by decide)⟩

/-- C7, the code at the failing input.  The doc comment of `New` asks for exactly one
PRIVATE KEY block and exactly one CERTIFICATE block, yet a file with two CERTIFICATE
blocks before its key is loaded, with the second certificate, and so is a file with a
second PRIVATE KEY block and a second CERTIFICATE block after the first pair: `New`
returns an issuer and no error for both. -/
theorem New_accepts_second_block :
    ReadFile demoFS "two.pem" = .ok demoTwoCertFile ∧
    ((pemBlocks demoLib demoTwoCertFile).filter
      (fun b => decide (b.Typ = "CERTIFICATE"))).length = 2 ∧
    New demoLib demoFS "two.pem" = some (.ok
      { cert := { DNSNames := ["B"], BasicConstraintsValid := true, IsCA := true },
        signer := 42, pem := demoEncode ⟨"CERTIFICATE", [3, 66]⟩ }) ∧
    ReadFile demoFS "trailing.pem" = .ok demoTrailingFile ∧
    ((pemBlocks demoLib demoTrailingFile).filter
      (fun b => decide (b.Typ = "PRIVATE KEY"))).length = 2 ∧
    ((pemBlocks demoLib demoTrailingFile).filter
      (fun b => decide (b.Typ = "CERTIFICATE"))).length = 2 ∧
    New demoLib demoFS "trailing.pem" = some (.ok demoCA) :=
  ⟨rfl, by decide, rfl, rfl, by decide, by decide, rfl⟩

/-! ## `Sign` and the certificate template -/

theorem endEntityTemplate_ok (lib : Lib) (env : SignEnv) (host : String)
    (opts : List CertOption) (tmpl : Certificate)
    (h : endEntityTemplate lib env host opts = .ok tmpl) :
    ∃ serial skid, env.randInt (1 <<< 128) = .ok serial ∧ env.randRead 20 = .ok skid ∧
      tmpl = opts.foldl (fun tmpl opt => opt tmpl)
        { SerialNumber := serial
          NotBefore := env.Now
          NotAfter := lib.AddDate env.Now 0 3 0
          Subject := { CommonName := host }
          KeyUsage := KeyUsageDigitalSignature
          ExtKeyUsage := [ExtKeyUsageServerAuth, ExtKeyUsageClientAuth]
          SubjectKeyId := skid
          DNSNames := [host] } := by
  unfold endEntityTemplate at h
  simp only at h
  cases h1 : env.randInt (1 <<< 128) with
  | error e => rw [h1] at h; cases h
  | ok serial =>
    cases h2 : env.randRead 20 with
    | error e => rw [h1, h2] at h; cases h
    | ok skid =>
      rw [h1, h2] at h
      simp only [Except.ok.injEq] at h
      exact ⟨serial, skid, rfl, rfl, h.symm⟩

theorem endEntityTemplate_returns (lib : Lib) (env : SignEnv) (host : String)
    (opts : List CertOption) (serial : Nat) (skid : ByteSeq)
    (h1 : env.randInt (1 <<< 128) = .ok serial) (h2 : env.randRead 20 = .ok skid) :
    ∃ tmpl, endEntityTemplate lib env host opts = .ok tmpl := by
  unfold endEntityTemplate
  simp only [h1, h2]
  exact ⟨_, rfl⟩

theorem foldl_WithValidity_names (vs : List (Time × Duration)) :
    ∀ tmpl : Certificate,
      ((vs.map (fun v => WithValidity v.1 v.2)).foldl (fun tmpl opt => opt tmpl) tmpl).DNSNames =
        tmpl.DNSNames ∧
      ((vs.map (fun v => WithValidity v.1 v.2)).foldl (fun tmpl opt => opt tmpl) tmpl).Subject =
        tmpl.Subject := by
  induction vs with
  | nil => intro tmpl; exact ⟨rfl, rfl⟩
  | cons v vs ih =>
    intro tmpl
    simp only [List.map_cons, List.foldl_cons]
    exact ih (WithValidity v.1 v.2 tmpl)

theorem Sign_ok (lib : Lib) (env : SignEnv) (c : CA) (host : String) (opts : List CertOption)
    (ee : EndEntity) (h : Sign lib env c host opts = .ok ee) :
    ∃ priv der tmpl leaf, env.GenerateKey = .ok priv ∧
      lib.MarshalPKCS8PrivateKey priv = .ok der ∧
      endEntityTemplate lib env host opts = .ok tmpl ∧
      env.CreateCertificate tmpl c.cert (lib.Public priv) c.signer = .ok leaf ∧
      ee.PKCS8 = lib.pemEncode ⟨"PRIVATE KEY", der⟩ ∧
      ee.Chain = lib.pemEncode ⟨"CERTIFICATE", leaf⟩ ++ c.pem := by
  unfold Sign at h
  cases h1 : env.GenerateKey with
  | error e => rw [h1] at h; cases h
  | ok priv =>
    rw [h1] at h
    simp only at h
    cases h2 : lib.MarshalPKCS8PrivateKey priv with
    | error e => rw [h2] at h; cases h
    | ok der =>
      rw [h2] at h
      simp only at h
      cases h3 : endEntityTemplate lib env host opts with
      | error e => rw [h3] at h; cases h
      | ok tmpl =>
        rw [h3] at h
        simp only at h
        cases h4 : env.CreateCertificate tmpl c.cert (lib.Public priv) c.signer with
        | error e => rw [h4] at h; cases h
        | ok leaf =>
          rw [h4] at h
          simp only [Except.ok.injEq] at h
          subst h
          exact ⟨priv, der, tmpl, leaf, rfl, h2, rfl, h4, rfl, rfl⟩

theorem New_ok (lib : Lib) (fs : FS) (path : String) (ca : CA)
    (h : New lib fs path = some (.ok ca)) :
    ∃ data certDER keyDER, ReadFile fs path = .ok data ∧
      New.loop lib path (data.length + 1) data none none = some (.ok (certDER, keyDER)) ∧
      (⟨"CERTIFICATE", certDER⟩ : Block) ∈ pemBlocks lib data ∧
      (⟨"PRIVATE KEY", keyDER⟩ : Block) ∈ pemBlocks lib data ∧
      New.finish lib certDER keyDER = .ok ca := by
  cases hr : ReadFile fs path with
  | error e => simp [New, hr] at h
  | ok data =>
    have hl := New_loop_eq_scan lib path (data.length + 1) data none none (by omega)
    rw [New_eq lib fs path data hr] at h
    cases hs : New.scan path (pemBlocks lib data) none none with
    | error e => rw [hs] at h; simp at h
    | ok ck =>
      obtain ⟨c, k⟩ := ck
      rw [hs] at h hl
      simp only [Option.some.injEq] at h
      obtain ⟨hm1, hm2⟩ := scan_ok_mem path _ none none c k hs
      refine ⟨data, c, k, rfl, hl, ?_, ?_, h⟩
      · rcases hm1 with hm1 | hm1
        · cases hm1
        · exact hm1
      · rcases hm2 with hm2 | hm2
        · cases hm2
        · exact hm2

theorem New_finish_ok (lib : Lib) (certDER keyDER : ByteSeq) (ca : CA)
    (h : New.finish lib certDER keyDER = .ok ca) :
    lib.ParseCertificate certDER = .ok ca.cert ∧ ca.cert.BasicConstraintsValid = true ∧
      ca.cert.IsCA = true ∧ lib.ParsePKCS8PrivateKey keyDER = .ok ca.signer ∧
      ca.pem = lib.pemEncode ⟨"CERTIFICATE", certDER⟩ := by
  unfold New.finish at h
  cases h1 : lib.ParseCertificate certDER with
  | error e => rw [h1] at h; cases h
  | ok cert =>
    rw [h1] at h
    simp only at h
    split at h
    · cases h
    · rename_i hf
      cases h2 : lib.ParsePKCS8PrivateKey keyDER with
      | error e => rw [h2] at h; cases h
      | ok signer =>
        rw [h2] at h
        simp only [Except.ok.injEq] at h
        subst h
        simp only [Bool.or_eq_true, Bool.not_eq_true', not_or, Bool.not_eq_false] at hf
        exact ⟨rfl, hf.1, hf.2, rfl, rfl⟩

theorem demoLib_roundTrip : demoLib.PemRoundTrip := by
  refine ⟨?_, rfl⟩
  intro b rest hb
  obtain ⟨t, x⟩ := b
  have ht : demoType (demoTag t) = t := by
    simp only [Block.relevant, Bool.or_eq_true, decide_eq_true_eq] at hb
    rcases hb with hb | hb <;> subst hb <;> rfl
  show demoDecode (demoEncode ⟨t, x⟩ ++ rest) = some (⟨t, x⟩, rest)
  simp [demoEncode, demoDecode, ht]

/-! ## The response writer -/

theorem Write_status (wo : WriteOracle) (w : ResponseWriter) (p : ByteSeq) :
    (w.Write wo p).1.status = (if w.wroteHeader then w.status else StatusOK) ∧
      (w.Write wo p).1.wroteHeader = true ∧
      (w.Write wo p).1.sentHeader = (if w.wroteHeader then w.sentHeader else w.header) := by
  unfold ResponseWriter.Write ResponseWriter.WriteHeader
  cases hw : w.wroteHeader <;> cases ho : wo w.writes <;> simp [hw, ho]

theorem Write_ok (wo : WriteOracle) (w : ResponseWriter) (p : ByteSeq)
    (h : wo w.writes = none) :
    (w.Write wo p).2 = none ∧ (w.Write wo p).1.body = w.body ++ p ∧
      (w.Write wo p).1.writes = w.writes + 1 := by
  unfold ResponseWriter.Write ResponseWriter.WriteHeader
  cases hw : w.wroteHeader <;> simp [hw, h]

theorem httpError_status (wo : WriteOracle) (w : ResponseWriter) (error : String) (code : Nat) :
    (httpError wo w error code).status = (if w.wroteHeader then w.status else code) ∧
      (w.wroteHeader = true → (httpError wo w error code).sentHeader = w.sentHeader) := by
  unfold httpError
  simp only
  rw [(Write_status wo _ _).1, (Write_status wo _ _).2.2]
  unfold ResponseWriter.WriteHeader
  cases hw : w.wroteHeader
  · simp
  · simp [hw]

theorem httpError_body (wo : WriteOracle) (w : ResponseWriter) (error : String) (code : Nat)
    (h : wo w.writes = none) :
    (httpError wo w error code).body = w.body ++ utf8 (error ++ "\n") := by
  unfold httpError
  simp only
  rw [(Write_ok wo _ _ _).2.1]
  · unfold ResponseWriter.WriteHeader
    cases hw : w.wroteHeader <;> simp
  · unfold ResponseWriter.WriteHeader
    cases hw : w.wroteHeader <;> simpa using h

/-! ## The `/renew` handler -/

theorem handler_sign_not_get (lib : Lib) (env : HandlerEnv) (h : handler) (w : ResponseWriter)
    (r : Request) (hr : r.Method ≠ "GET") :
    handler.sign lib env h w r = some
      ⟨httpError env.write w "method not allowed" StatusMethodNotAllowed, [], []⟩ := by
  simp only [handler.sign, hr, ne_eq, not_false_eq_true, if_true]

theorem handler_sign_no_chain (lib : Lib) (env : HandlerEnv) (h : handler) (w : ResponseWriter)
    (tls : ConnectionState) (ht : tls.VerifiedChains = []) :
    handler.sign lib env h w ⟨"GET", some tls⟩ = some
      ⟨httpError env.write w "unauthorized" StatusForbidden, [], []⟩ := by
  simp [handler.sign, ht]

theorem handler_sign_bad_leaf (lib : Lib) (env : HandlerEnv) (h : handler) (w : ResponseWriter)
    (leaf : Certificate) (rest : List Certificate) (more : List (List Certificate))
    (hl : leaf.DNSNames.length ≠ 1) :
    handler.sign lib env h w ⟨"GET", some ⟨(leaf :: rest) :: more⟩⟩ = some
      ⟨httpError env.write w "expected exactly one DNS SAN" StatusBadRequest, [], []⟩ := by
  simp [handler.sign, hl]

theorem handler_sign_single_name (lib : Lib) (env : HandlerEnv) (h : handler)
    (leaf : Certificate) (rest : List Certificate) (more : List (List Certificate))
    (host : String) (hl : leaf.DNSNames = [host]) :
    ∃ run, handler.sign lib env h ResponseWriter.fresh
        ⟨"GET", some ⟨(leaf :: rest) :: more⟩⟩ = some run ∧
      run.signCalls = [(host, [])] ∧
      (∀ err, Sign lib env.sign h.ca host [] = .error err →
        run.w.status = 500 ∧ (env.write 0 = none → run.w.body = utf8 (err ++ "\n"))) ∧
      (∀ ee, Sign lib env.sign h.ca host [] = .ok ee →
        run.w.status = 200 ∧
        run.w.sentHeader "Content-Type" = ["application/x-pem-file"] ∧
        (env.write 0 = none → env.write 1 = none → run.w.body = ee.PKCS8 ++ ee.Chain)) := by
  cases hs : Sign lib env.sign h.ca host [] with
  | error err =>
    have hrun : handler.sign lib env h ResponseWriter.fresh
        ⟨"GET", some ⟨(leaf :: rest) :: more⟩⟩ = some
        ⟨httpError env.write ResponseWriter.fresh err StatusInternalServerError,
          [(host, [])], []⟩ := by
      simp [handler.sign, hl, hs]
    refine ⟨_, hrun, rfl, ?_, ?_⟩
    · intro err' he
      cases he
      refine ⟨?_, ?_⟩
      · rw [(httpError_status _ _ _ _).1]; rfl
      · intro hw
        rw [httpError_body _ _ _ _ hw]
        rfl
    · intro ee he; cases he
  | ok ee =>
    have hA := Write_status env.write ({ ResponseWriter.fresh with
      header := ResponseWriter.fresh.header.Set "Content-Type" "application/x-pem-file" }
        : ResponseWriter) ee.PKCS8
    have hB := Write_ok env.write ({ ResponseWriter.fresh with
      header := ResponseWriter.fresh.header.Set "Content-Type" "application/x-pem-file" }
        : ResponseWriter) ee.PKCS8
    cases hw0 : ({ ResponseWriter.fresh with
        header := ResponseWriter.fresh.header.Set "Content-Type" "application/x-pem-file" }
          : ResponseWriter).Write env.write ee.PKCS8 with
    | mk w1 e1 =>
      rw [hw0] at hA hB
      simp only at hA hB
      have hst1 : w1.status = 200 := hA.1
      have hsent1 : w1.sentHeader "Content-Type" = ["application/x-pem-file"] := by
        rw [hA.2.2]; rfl
      cases e1 with
      | some err1 =>
        have hrun : handler.sign lib env h ResponseWriter.fresh
            ⟨"GET", some ⟨(leaf :: rest) :: more⟩⟩ = some
            ⟨httpError env.write w1 err1 StatusInternalServerError, [(host, [])], []⟩ := by
          simp [handler.sign, hl, hs, hw0]
        refine ⟨_, hrun, rfl, ?_, ?_⟩
        · intro err' he; cases he
        · intro ee' _
          refine ⟨?_, ?_, ?_⟩
          · rw [(httpError_status _ _ _ _).1, hA.2.1, hst1]
            rfl
          · rw [(httpError_status _ _ _ _).2 hA.2.1]
            exact hsent1
          · intro h0 _
            have := (hB h0).1
            cases this
      | none =>
        have hC := Write_status env.write w1 ee.Chain
        have hD := Write_ok env.write w1 ee.Chain
        cases hw1 : w1.Write env.write ee.Chain with
        | mk w2 e2 =>
          rw [hw1] at hC hD
          simp only at hC hD
          have hst2 : w2.status = 200 := by rw [hC.1, hA.2.1, hst1]; rfl
          have hsent2 : w2.sentHeader "Content-Type" = ["application/x-pem-file"] := by
            rw [hC.2.2, hA.2.1]; exact hsent1
          cases e2 with
          | some err2 =>
            have hrun : handler.sign lib env h ResponseWriter.fresh
                ⟨"GET", some ⟨(leaf :: rest) :: more⟩⟩ = some
                ⟨httpError env.write w2 err2 StatusInternalServerError,
                  [(host, [])], []⟩ := by
              simp [handler.sign, hl, hs, hw0, hw1]
            refine ⟨_, hrun, rfl, ?_, ?_⟩
            · intro err' he; cases he
            · intro ee' _
              refine ⟨?_, ?_, ?_⟩
              · rw [(httpError_status _ _ _ _).1, hC.2.1, hst2]
                rfl
              · rw [(httpError_status _ _ _ _).2 hC.2.1]
                exact hsent2
              · intro h0 h1
                have hw : env.write w1.writes = none := by
                  rw [(hB h0).2.2]; exact h1
                have := (hD hw).1
                cases this
          | none =>
            have hrun : handler.sign lib env h ResponseWriter.fresh
                ⟨"GET", some ⟨(leaf :: rest) :: more⟩⟩ = some
                ⟨w2, [(host, [])], ["signed cert for " ++ host]⟩ := by
              simp [handler.sign, hl, hs, hw0, hw1]
            refine ⟨_, hrun, rfl, ?_, ?_⟩
            · intro err' he; cases he
            · intro ee' hee
              cases hee
              refine ⟨hst2, hsent2, ?_⟩
              intro h0 h1
              have hw : env.write w1.writes = none := by
                rw [(hB h0).2.2]; exact h1
              show w2.body = ee.PKCS8 ++ ee.Chain
              rw [(hD hw).2.1, (hB h0).2.1]
              rfl

theorem handler_sign_status_ok (lib : Lib) (env : HandlerEnv) (h : handler) (r : Request)
    (run : HandlerRun) (hrun : handler.sign lib env h ResponseWriter.fresh r = some run)
    (hs : run.w.status = 200) :
    ∃ leaf rest more host ee, r = ⟨"GET", some ⟨(leaf :: rest) :: more⟩⟩ ∧
      leaf.DNSNames = [host] ∧ Sign lib env.sign h.ca host [] = .ok ee := by
  have hcode : ∀ (msg : String) (code : Nat), code ≠ 200 →
      (httpError env.write ResponseWriter.fresh msg code).status ≠ 200 := by
    intro msg code hc
    rw [(httpError_status _ _ _ _).1]
    exact hc
  obtain ⟨m, t⟩ := r
  by_cases hm : m = "GET"
  · subst hm
    cases t with
    | none => simp [handler.sign] at hrun
    | some tls =>
      obtain ⟨chains⟩ := tls
      cases chains with
      | nil =>
        rw [handler_sign_no_chain lib env h _ ⟨[]⟩ rfl, Option.some.injEq] at hrun
        subst hrun
        exact absurd hs (hcode _ _ (by decide))
      | cons chain more =>
        cases chain with
        | nil => simp [handler.sign] at hrun
        | cons leaf rest =>
          by_cases hl : leaf.DNSNames.length = 1
          · obtain ⟨host, hh⟩ := List.length_eq_one.1 hl
            obtain ⟨run', hrun', _, herr, _⟩ :=
              handler_sign_single_name lib env h leaf rest more host hh
            rw [hrun, Option.some.injEq] at hrun'
            subst hrun'
            cases hS : Sign lib env.sign h.ca host [] with
            | error e =>
              have := (herr e hS).1
              rw [hs] at this
              cases this
            | ok ee => exact ⟨leaf, rest, more, host, ee, rfl, hh, hS⟩
          · rw [handler_sign_bad_leaf lib env h _ leaf rest more hl, Option.some.injEq] at hrun
            subst hrun
            exact absurd hs (hcode _ _ (by decide))
  · rw [handler_sign_not_get lib env h _ ⟨m, t⟩ hm, Option.some.injEq] at hrun
    subst hrun
    exact absurd hs (hcode _ _ (by decide))

/-- C1.  The status of the response to a request is decided in this order: 405 when
the method is not GET, whatever the TLS state; else 403 when there is no verified
chain; else 400 when the leaf of the first verified chain does not carry exactly one
DNS name; else `Sign` is called once, with that name and no option, and the status is
500 with the error text as body (when the write goes through) if `Sign` fails and 200
if it succeeds.  In the first three cases `Sign` is not called. -/
theorem handler_sign_status_order (lib : Lib) (env : HandlerEnv) (h : handler) :
    (∀ r : Request, r.Method ≠ "GET" →
      ∃ run, handler.sign lib env h ResponseWriter.fresh r = some run ∧
        run.w.status = 405 ∧ run.signCalls = []) ∧
    (∀ tls : ConnectionState, tls.VerifiedChains = [] →
      ∃ run, handler.sign lib env h ResponseWriter.fresh ⟨"GET", some tls⟩ = some run ∧
        run.w.status = 403 ∧ run.signCalls = []) ∧
    (∀ (leaf : Certificate) (rest : List Certificate) (more : List (List Certificate)),
      leaf.DNSNames.length ≠ 1 →
      ∃ run, handler.sign lib env h ResponseWriter.fresh
          ⟨"GET", some ⟨(leaf :: rest) :: more⟩⟩ = some run ∧
        run.w.status = 400 ∧ run.signCalls = []) ∧
    (∀ (leaf : Certificate) (rest : List Certificate) (more : List (List Certificate))
      (host : String), leaf.DNSNames = [host] →
      ∃ run, handler.sign lib env h ResponseWriter.fresh
          ⟨"GET", some ⟨(leaf :: rest) :: more⟩⟩ = some run ∧
        run.signCalls = [(host, [])] ∧
        (∀ err, Sign lib env.sign h.ca host [] = .error err →
          run.w.status = 500 ∧ (env.write 0 = none → run.w.body = utf8 (err ++ "\n"))) ∧
        (∀ ee, Sign lib env.sign h.ca host [] = .ok ee → run.w.status = 200)) := by
  refine ⟨?_, ?_, ?_, ?_⟩
  · intro r hr
    refine ⟨_, handler_sign_not_get lib env h _ r hr, ?_, rfl⟩
    rw [(httpError_status _ _ _ _).1]
    rfl
  · intro tls ht
    refine ⟨_, handler_sign_no_chain lib env h _ tls ht, ?_, rfl⟩
    rw [(httpError_status _ _ _ _).1]
    rfl
  · intro leaf rest more hl
    refine ⟨_, handler_sign_bad_leaf lib env h _ leaf rest more hl, ?_, rfl⟩
    rw [(httpError_status _ _ _ _).1]
    rfl
  · intro leaf rest more host hl
    obtain ⟨run, hrun, hcalls, herr, hok⟩ :=
      handler_sign_single_name lib env h leaf rest more host hl
    exact ⟨run, hrun, hcalls, herr, fun ee hee => (hok ee hee).1⟩

/-- Witness of C1 on the concrete library: a POST without TLS state gives 405, a GET
without verified chain 403, a GET whose leaf has two DNS names 400, a GET whose leaf
has one DNS name 200 after one call of `Sign` for that name, and 500 with the error
text when key generation fails. -/
theorem handler_sign_status_order_witness :
    (∃ run, handler.sign demoLib ⟨demoEnv 5, fun _ => none⟩ ⟨demoCA⟩ ResponseWriter.fresh
        ⟨"POST", none⟩ = some run ∧ run.w.status = 405 ∧ run.signCalls = []) ∧
    (∃ run, handler.sign demoLib ⟨demoEnv 5, fun _ => none⟩ ⟨demoCA⟩ ResponseWriter.fresh
        ⟨"GET", some ⟨[]⟩⟩ = some run ∧ run.w.status = 403 ∧ run.signCalls = []) ∧
    (∃ run, handler.sign demoLib ⟨demoEnv 5, fun _ => none⟩ ⟨demoCA⟩ ResponseWriter.fresh
        ⟨"GET", some ⟨[[{ DNSNames := ["a.example", "b.example"] }]]⟩⟩ = some run ∧
        run.w.status = 400 ∧ run.signCalls = []) ∧
    (∃ run, handler.sign demoLib ⟨demoEnv 5, fun _ => none⟩ ⟨demoCA⟩ ResponseWriter.fresh
        ⟨"GET", some ⟨[[{ DNSNames := ["a.example"] }]]⟩⟩ = some run ∧
        run.signCalls = [("a.example", [])] ∧ run.w.status = 200) ∧
    (∃ run, handler.sign demoLib ⟨demoFailEnv, fun _ => none⟩ ⟨demoCA⟩ ResponseWriter.fresh
        ⟨"GET", some ⟨[[{ DNSNames := ["a.example"] }]]⟩⟩ = some run ∧
        run.signCalls = [("a.example", [])] ∧ run.w.status = 500 ∧
        run.w.body = utf8 ("entropy source failed" ++ "\n")) := by
  refine ⟨?_, ?_, ?_, ?_, ?_⟩
  · exact (handler_sign_status_order demoLib ⟨demoEnv 5, fun _ => none⟩ ⟨demoCA⟩).1
      ⟨"POST", none⟩ (by decide)
  · exact (handler_sign_status_order demoLib ⟨demoEnv 5, fun _ => none⟩ ⟨demoCA⟩).2.1
      ⟨[]⟩ rfl
  · exact (handler_sign_status_order demoLib ⟨demoEnv 5, fun _ => none⟩ ⟨demoCA⟩).2.2.1
      { DNSNames := ["a.example", "b.example"] } [] [] (by decide)
  · obtain ⟨run, hrun, hcalls, _, hok⟩ :=
      (handler_sign_status_order demoLib ⟨demoEnv 5, fun _ => none⟩ ⟨demoCA⟩).2.2.2
        { DNSNames := ["a.example"] } [] [] "a.example" rfl
    exact ⟨run, hrun, hcalls, hok _ rfl⟩
  · obtain ⟨run, hrun, hcalls, herr, _⟩ :=
      (handler_sign_status_order demoLib ⟨demoFailEnv, fun _ => none⟩ ⟨demoCA⟩).2.2.2
        { DNSNames := ["a.example"] } [] [] "a.example" rfl
    exact ⟨run, hrun, hcalls, (herr _ rfl).1, (herr _ rfl).2 rfl⟩

/-! ## The certificate template: names and validity -/

/-- C2.  For every host name and every list of options built with `WithValidity`,
the template of `endEntityTemplate` has the one DNS name `host` and the subject
common name `host`, and it is built whenever the random source delivers; the
certificate of a successful `Sign` is created from that template; and the handler,
for a leaf with the single DNS name `host`, calls `Sign` for `host` and nothing
else. -/
theorem Sign_template_single_DNS_name (lib : Lib) (env : SignEnv) (host : String)
    (vs : List (Time × Duration)) :
    (∀ tmpl, endEntityTemplate lib env host (vs.map (fun v => WithValidity v.1 v.2)) = .ok tmpl →
      tmpl.DNSNames = [host] ∧ tmpl.Subject.CommonName = host) ∧
    (∀ serial skid, env.randInt (1 <<< 128) = .ok serial → env.randRead 20 = .ok skid →
      ∃ tmpl, endEntityTemplate lib env host (vs.map (fun v => WithValidity v.1 v.2)) = .ok tmpl ∧
        tmpl.DNSNames = [host] ∧ tmpl.Subject.CommonName = host) ∧
    (∀ (c : CA) (ee : EndEntity),
      Sign lib env c host (vs.map (fun v => WithValidity v.1 v.2)) = .ok ee →
      ∃ priv tmpl leaf, env.GenerateKey = .ok priv ∧
        endEntityTemplate lib env host (vs.map (fun v => WithValidity v.1 v.2)) = .ok tmpl ∧
        tmpl.DNSNames = [host] ∧ tmpl.Subject.CommonName = host ∧
        env.CreateCertificate tmpl c.cert (lib.Public priv) c.signer = .ok leaf ∧
        ee.Chain = lib.pemEncode ⟨"CERTIFICATE", leaf⟩ ++ c.pem) ∧
    (∀ (wo : WriteOracle) (h : handler) (leaf : Certificate) (rest : List Certificate)
      (more : List (List Certificate)), leaf.DNSNames = [host] →
      ∃ run, handler.sign lib ⟨env, wo⟩ h ResponseWriter.fresh
          ⟨"GET", some ⟨(leaf :: rest) :: more⟩⟩ = some run ∧
        run.signCalls = [(host, [])]) := by
  have hnames : ∀ tmpl,
      endEntityTemplate lib env host (vs.map (fun v => WithValidity v.1 v.2)) = .ok tmpl →
      tmpl.DNSNames = [host] ∧ tmpl.Subject.CommonName = host := by
    intro tmpl ht
    obtain ⟨serial, skid, _, _, heq⟩ := endEntityTemplate_ok lib env host _ tmpl ht
    rw [heq]
    obtain ⟨h1, h2⟩ := foldl_WithValidity_names vs
      { SerialNumber := serial
        NotBefore := env.Now
        NotAfter := lib.AddDate env.Now 0 3 0
        Subject := { CommonName := host }
        KeyUsage := KeyUsageDigitalSignature
        ExtKeyUsage := [ExtKeyUsageServerAuth, ExtKeyUsageClientAuth]
        SubjectKeyId := skid
        DNSNames := [host] }
    exact ⟨h1, by rw [h2]⟩
  refine ⟨hnames, ?_, ?_, ?_⟩
  · intro serial skid h1 h2
    obtain ⟨tmpl, ht⟩ := endEntityTemplate_returns lib env host
      (vs.map (fun v => WithValidity v.1 v.2)) serial skid h1 h2
    exact ⟨tmpl, ht, hnames tmpl ht⟩
  · intro c ee hs
    obtain ⟨priv, der, tmpl, leaf, h1, _, h3, h4, _, h6⟩ := Sign_ok lib env c host _ ee hs
    exact ⟨priv, tmpl, leaf, h1, h3, (hnames tmpl h3).1, (hnames tmpl h3).2, h4, h6⟩
  · intro wo h leaf rest more hl
    obtain ⟨run, hrun, hcalls, _⟩ :=
      handler_sign_single_name lib ⟨env, wo⟩ h leaf rest more host hl
    exact ⟨run, hrun, hcalls⟩

/-- Witness of C2 on the concrete library, for the host `a.example` and the options
`WithValidity` of one hour and of two hours. -/
theorem Sign_template_single_DNS_name_witness :
    (∃ tmpl, endEntityTemplate demoLib (demoEnv 5) "a.example"
        ([((10 : Time), Hour), (20, 2 * Hour)].map (fun v => WithValidity v.1 v.2)) = .ok tmpl ∧
      tmpl.DNSNames = ["a.example"] ∧ tmpl.Subject.CommonName = "a.example") ∧
    (∃ priv tmpl leaf, (demoEnv 5).GenerateKey = .ok priv ∧
      endEntityTemplate demoLib (demoEnv 5) "a.example"
        ([((10 : Time), Hour), (20, 2 * Hour)].map (fun v => WithValidity v.1 v.2)) = .ok tmpl ∧
      tmpl.DNSNames = ["a.example"] ∧ tmpl.Subject.CommonName = "a.example" ∧
      (demoEnv 5).CreateCertificate tmpl demoCA.cert (demoLib.Public priv) demoCA.signer =
        .ok leaf ∧
      (⟨[2, 1, 5], [1, 2, 1005, 9, 1, 1, 3]⟩ : EndEntity).Chain =
        demoLib.pemEncode ⟨"CERTIFICATE", leaf⟩ ++ demoCA.pem) ∧
    (∃ run, handler.sign demoLib ⟨demoEnv 5, fun _ => none⟩ ⟨demoCA⟩ ResponseWriter.fresh
        ⟨"GET", some ⟨[[{ DNSNames := ["a.example"] }]]⟩⟩ = some run ∧
      run.signCalls = [("a.example", [])]) :=
  ⟨(Sign_template_single_DNS_name demoLib (demoEnv 5) "a.example"
      [(10, Hour), (20, 2 * Hour)]).2.1 12 (List.replicate 20 5) rfl rfl,
    (Sign_template_single_DNS_name demoLib (demoEnv 5) "a.example"
      [(10, Hour), (20, 2 * Hour)]).2.2.1 demoCA ⟨[2, 1, 5], [1, 2, 1005, 9, 1, 1, 3]⟩ rfl,
    (Sign_template_single_DNS_name demoLib (demoEnv 5) "a.example"
      [(10, Hour), (20, 2 * Hour)]).2.2.2 (fun _ => none) ⟨demoCA⟩
      { DNSNames := ["a.example"] } [] [] rfl⟩

/-- C3.  A template built without option has `NotAfter` equal to `NotBefore`
advanced by three calendar months (`AddDate(0, 3, 0)`); a template whose last option
is `WithValidity(d)` has `NotAfter` minus `NotBefore` equal to `d`; and the server
identity signs with the one option `WithValidity(24 * time.Hour)`, so the window of
its template is 24 hours, 86 400 000 000 000 nanoseconds. -/
theorem template_validity_window (lib : Lib) (env : SignEnv) (host : String) :
    (∀ tmpl, endEntityTemplate lib env host [] = .ok tmpl →
      tmpl.NotBefore = env.Now ∧ tmpl.NotAfter = lib.AddDate tmpl.NotBefore 0 3 0) ∧
    (∀ (pre : List CertOption) (now : Time) (d : Duration) (tmpl : Certificate),
      endEntityTemplate lib env host (pre ++ [WithValidity now d]) = .ok tmpl →
      tmpl.NotBefore = now ∧ tmpl.NotAfter = now.Add d ∧
        tmpl.NotAfter.Sub tmpl.NotBefore = d) ∧
    (∀ (tenv : TickEnv) (sc : serverCert) (kp : TLSCertificate),
      sc.signing lib tenv = .ok kp →
      ∃ ee tmpl,
        Sign lib tenv.sign sc.ca sc.host [WithValidity tenv.optNow (24 * Hour)] = .ok ee ∧
        endEntityTemplate lib tenv.sign sc.host [WithValidity tenv.optNow (24 * Hour)] =
          .ok tmpl ∧
        tmpl.NotAfter.Sub tmpl.NotBefore = 86400000000000) := by
  have hlast : ∀ (e : SignEnv) (hst : String) (pre : List CertOption) (now : Time)
      (d : Duration) (tmpl : Certificate),
      endEntityTemplate lib e hst (pre ++ [WithValidity now d]) = .ok tmpl →
      tmpl.NotBefore = now ∧ tmpl.NotAfter = now.Add d ∧
        tmpl.NotAfter.Sub tmpl.NotBefore = d := by
    intro e hst pre now d tmpl ht
    obtain ⟨serial, skid, _, _, heq⟩ := endEntityTemplate_ok lib e hst _ tmpl ht
    rw [heq, List.foldl_append]
    refine ⟨rfl, rfl, ?_⟩
    show (now + d : Int) - now = d
    exact add_sub_cancel_left now d
  refine ⟨?_, hlast env host, ?_⟩
  · intro tmpl ht
    obtain ⟨serial, skid, _, _, heq⟩ := endEntityTemplate_ok lib env host _ tmpl ht
    rw [heq]
    exact ⟨rfl, rfl⟩
  · intro tenv sc kp hk
    unfold serverCert.signing at hk
    cases hs : Sign lib tenv.sign sc.ca sc.host [WithValidity tenv.optNow (24 * Hour)] with
    | error e => rw [hs] at hk; cases hk
    | ok ee =>
      obtain ⟨_, _, tmpl, _, _, _, h3, _, _, _⟩ := Sign_ok lib tenv.sign sc.ca sc.host _ ee hs
      refine ⟨ee, tmpl, rfl, h3, ?_⟩
      have := (hlast tenv.sign sc.host [] tenv.optNow (24 * Hour) tmpl h3).2.2
      rw [this]
      rfl

/-- Witness of C3 on the concrete library: a template without option, a template
with a validity of two hours, and the template of the server identity. -/
theorem template_validity_window_witness :
    (∃ tmpl, endEntityTemplate demoLib (demoEnv 5) "a.example" [] = .ok tmpl ∧
      tmpl.NotBefore = (demoEnv 5).Now ∧
      tmpl.NotAfter = demoLib.AddDate tmpl.NotBefore 0 3 0) ∧
    (∃ tmpl, endEntityTemplate demoLib (demoEnv 5) "a.example"
        ([] ++ [WithValidity 50 (2 * Hour)]) = .ok tmpl ∧
      tmpl.NotBefore = 50 ∧ tmpl.NotAfter = Time.Add 50 (2 * Hour) ∧
      tmpl.NotAfter.Sub tmpl.NotBefore = 2 * Hour) ∧
    (∃ ee tmpl,
      Sign demoLib (demoEnv 5) demoCA "ca.example" [WithValidity 77 (24 * Hour)] = .ok ee ∧
      endEntityTemplate demoLib (demoEnv 5) "ca.example" [WithValidity 77 (24 * Hour)] =
        .ok tmpl ∧
      tmpl.NotAfter.Sub tmpl.NotBefore = 86400000000000) :=
  ⟨⟨_, rfl, (template_validity_window demoLib (demoEnv 5) "a.example").1 _ rfl⟩,
    ⟨_, rfl, (template_validity_window demoLib (demoEnv 5) "a.example").2.1
      [] 50 (2 * Hour) _ rfl⟩,
    (template_validity_window demoLib (demoEnv 5) "a.example").2.2
      ⟨77, demoEnv 5⟩ ⟨"ca.example", demoCA, none⟩ ⟨[[1005, 10], [3]], 5⟩ rfl⟩

/-! ## The chain returned by `Sign` and the body of the response -/

theorem pemBlocks_encode (lib : Lib) (hrt : lib.PemRoundTrip) (b : Block) (rest : ByteSeq)
    (hb : b.relevant = true) :
    pemBlocks lib (lib.pemEncode b ++ rest) = b :: pemBlocks lib rest :=
  pemBlocks_some lib _ b rest (hrt.1 b rest hb)

theorem pemBlocks_nil (lib : Lib) (hrt : lib.PemRoundTrip) : pemBlocks lib [] = [] :=
  pemBlocks_none lib [] hrt.2

/-- C4.  For a CA loaded by `New` and a successful `Sign`, decoding the chain gives
the CERTIFICATE block of the newly created certificate with `c.pem` as remainder,
then the CERTIFICATE block with the DER bytes that the loop of `New` retained with
nothing as remainder: two CERTIFICATE blocks, leaf first, then the CA certificate, and
nothing else. -/
theorem Sign_chain_leaf_then_CA (lib : Lib) (fs : FS) (path : String) (ca : CA)
    (env : SignEnv) (host : String) (opts : List CertOption) (ee : EndEntity)
    (hrt : lib.PemRoundTrip) (hnew : New lib fs path = some (.ok ca))
    (hsign : Sign lib env ca host opts = .ok ee) :
    ∃ leaf certDER,
      (∃ priv tmpl, env.GenerateKey = .ok priv ∧
        endEntityTemplate lib env host opts = .ok tmpl ∧
        env.CreateCertificate tmpl ca.cert (lib.Public priv) ca.signer = .ok leaf) ∧
      (∃ data keyDER, ReadFile fs path = .ok data ∧
        New.loop lib path (data.length + 1) data none none = some (.ok (certDER, keyDER)) ∧
        (⟨"CERTIFICATE", certDER⟩ : Block) ∈ pemBlocks lib data ∧
        lib.ParseCertificate certDER = .ok ca.cert) ∧
      lib.pemDecode ee.Chain = some (⟨"CERTIFICATE", leaf⟩, ca.pem) ∧
      lib.pemDecode ca.pem = some (⟨"CERTIFICATE", certDER⟩, []) ∧
      pemBlocks lib ee.Chain = [⟨"CERTIFICATE", leaf⟩, ⟨"CERTIFICATE", certDER⟩] := by
  obtain ⟨data, certDER, keyDER, hread, hloop, hmem, _, hfin⟩ := New_ok lib fs path ca hnew
  obtain ⟨hparse, _, _, _, hpem⟩ := New_finish_ok lib certDER keyDER ca hfin
  obtain ⟨priv, der, tmpl, leaf, h1, _, h3, h4, _, h6⟩ := Sign_ok lib env ca host opts ee hsign
  have hrel : ∀ x, (⟨"CERTIFICATE", x⟩ : Block).relevant = true := fun _ => rfl
  have hca : lib.pemDecode ca.pem = some (⟨"CERTIFICATE", certDER⟩, []) := by
    have := hrt.1 ⟨"CERTIFICATE", certDER⟩ [] (hrel _)
    rwa [List.append_nil, ← hpem] at this
  refine ⟨leaf, certDER, ⟨priv, tmpl, h1, h3, h4⟩, ⟨data, keyDER, hread, hloop, hmem, hparse⟩,
    ?_, hca, ?_⟩
  · rw [h6]
    exact hrt.1 ⟨"CERTIFICATE", leaf⟩ ca.pem (hrel _)
  · rw [h6, pemBlocks_encode lib hrt _ _ (hrel _), pemBlocks_some lib ca.pem _ [] hca,
      pemBlocks_nil lib hrt]

/-- Witness of C4 on the concrete library: the CA of `ca.pem` signs for `a.example`. -/
theorem Sign_chain_leaf_then_CA_witness :
    ∃ leaf certDER,
      (∃ priv tmpl, (demoEnv 5).GenerateKey = .ok priv ∧
        endEntityTemplate demoLib (demoEnv 5) "a.example" [] = .ok tmpl ∧
        (demoEnv 5).CreateCertificate tmpl demoCA.cert (demoLib.Public priv) demoCA.signer =
          .ok leaf) ∧
      (∃ data keyDER, ReadFile demoFS "ca.pem" = .ok data ∧
        New.loop demoLib "ca.pem" (data.length + 1) data none none =
          some (.ok (certDER, keyDER)) ∧
        (⟨"CERTIFICATE", certDER⟩ : Block) ∈ pemBlocks demoLib data ∧
        demoLib.ParseCertificate certDER = .ok demoCA.cert) ∧
      demoLib.pemDecode (⟨[2, 1, 5], [1, 2, 1005, 9, 1, 1, 3]⟩ : EndEntity).Chain =
        some (⟨"CERTIFICATE", leaf⟩, demoCA.pem) ∧
      demoLib.pemDecode demoCA.pem = some (⟨"CERTIFICATE", certDER⟩, []) ∧
      pemBlocks demoLib (⟨[2, 1, 5], [1, 2, 1005, 9, 1, 1, 3]⟩ : EndEntity).Chain =
        [⟨"CERTIFICATE", leaf⟩, ⟨"CERTIFICATE", certDER⟩] :=
  Sign_chain_leaf_then_CA demoLib demoFS "ca.pem" demoCA (demoEnv 5) "a.example" []
    ⟨[2, 1, 5], [1, 2, 1005, 9, 1, 1, 3]⟩ demoLib_roundTrip rfl rfl

/-- C5.  When the handler answers with status 200 and its two writes go through, the
response carries the single Content-Type value "application/x-pem-file" and its body
is the encoding of the new private key (one PRIVATE KEY block) followed by the chain
(the CERTIFICATE block of the leaf, then `c.pem`, which for a CA loaded by `New` is
the CERTIFICATE block of the CA certificate), with nothing before, between or after:
the body decodes to exactly these three blocks. -/
theorem handler_sign_success_body (lib : Lib) (env : HandlerEnv) (h : handler) (r : Request)
    (run : HandlerRun) (hrun : handler.sign lib env h ResponseWriter.fresh r = some run)
    (hstatus : run.w.status = 200) (hw0 : env.write 0 = none) (hw1 : env.write 1 = none) :
    run.w.sentHeader "Content-Type" = ["application/x-pem-file"] ∧
    ∃ host ee keyDER leafDER,
      run.signCalls = [(host, [])] ∧
      Sign lib env.sign h.ca host [] = .ok ee ∧
      ee.PKCS8 = lib.pemEncode ⟨"PRIVATE KEY", keyDER⟩ ∧
      ee.Chain = lib.pemEncode ⟨"CERTIFICATE", leafDER⟩ ++ h.ca.pem ∧
      run.w.body = ee.PKCS8 ++ ee.Chain ∧
      (∀ fs path, New lib fs path = some (.ok h.ca) →
        ∃ certDER, lib.ParseCertificate certDER = .ok h.ca.cert ∧
          run.w.body = lib.pemEncode ⟨"PRIVATE KEY", keyDER⟩ ++
            (lib.pemEncode ⟨"CERTIFICATE", leafDER⟩ ++
              lib.pemEncode ⟨"CERTIFICATE", certDER⟩) ∧
          (lib.PemRoundTrip → pemBlocks lib run.w.body =
            [⟨"PRIVATE KEY", keyDER⟩, ⟨"CERTIFICATE", leafDER⟩, ⟨"CERTIFICATE", certDER⟩])) := by
  obtain ⟨leaf, rest, more, host, ee, hr, hl, hS⟩ :=
    handler_sign_status_ok lib env h r run hrun hstatus
  subst hr
  obtain ⟨run', hrun', hcalls, _, hok⟩ :=
    handler_sign_single_name lib env h leaf rest more host hl
  rw [hrun, Option.some.injEq] at hrun'
  subst hrun'
  obtain ⟨_, hsent, hbody⟩ := hok ee hS
  have hb := hbody hw0 hw1
  obtain ⟨priv, der, tmpl, leafDER, _, _, _, _, h5, h6⟩ := Sign_ok lib env.sign h.ca host [] ee hS
  refine ⟨hsent, host, ee, der, leafDER, hcalls, hS, h5, h6, hb, ?_⟩
  intro fs path hnew
  obtain ⟨data, certDER, keyDER, _, _, _, _, hfin⟩ := New_ok lib fs path h.ca hnew
  obtain ⟨hparse, _, _, _, hpem⟩ := New_finish_ok lib certDER keyDER h.ca hfin
  have hb' : run.w.body = lib.pemEncode ⟨"PRIVATE KEY", der⟩ ++
      (lib.pemEncode ⟨"CERTIFICATE", leafDER⟩ ++ lib.pemEncode ⟨"CERTIFICATE", certDER⟩) := by
    rw [hb, h5, h6, hpem]
  refine ⟨certDER, hparse, hb', ?_⟩
  intro hrt
  have hcert : lib.pemEncode ⟨"CERTIFICATE", certDER⟩ =
      lib.pemEncode ⟨"CERTIFICATE", certDER⟩ ++ [] := (List.append_nil _).symm
  rw [hb', pemBlocks_encode lib hrt ⟨"PRIVATE KEY", der⟩ _ rfl,
    pemBlocks_encode lib hrt ⟨"CERTIFICATE", leafDER⟩ _ rfl, hcert,
    pemBlocks_encode lib hrt ⟨"CERTIFICATE", certDER⟩ _ rfl, pemBlocks_nil lib hrt]

/-- Witness of C5 on the concrete library: the run `demoRun` of the handler. -/
theorem handler_sign_success_body_witness :
    demoRun.w.sentHeader "Content-Type" = ["application/x-pem-file"] ∧
    ∃ host ee keyDER leafDER certDER,
      demoRun.signCalls = [(host, [])] ∧
      Sign demoLib (demoEnv 5) demoCA host [] = .ok ee ∧
      demoRun.w.body = ee.PKCS8 ++ ee.Chain ∧
      pemBlocks demoLib demoRun.w.body =
        [⟨"PRIVATE KEY", keyDER⟩, ⟨"CERTIFICATE", leafDER⟩, ⟨"CERTIFICATE", certDER⟩] := by
  obtain ⟨hsent, host, ee, keyDER, leafDER, hcalls, hS, _, _, hbody, hnew⟩ :=
    handler_sign_success_body demoLib ⟨demoEnv 5, fun _ => none⟩ ⟨demoCA⟩ demoRequest demoRun
      rfl rfl rfl rfl
  obtain ⟨certDER, _, _, hblocks⟩ := hnew demoFS "ca.pem" rfl
  exact ⟨hsent, host, ee, keyDER, leafDER, certDER, hcalls, hS, hbody,
    hblocks demoLib_roundTrip⟩

/-! ## The self-renewing server identity -/

theorem signing_ok (lib : Lib) (env : TickEnv) (sc : serverCert) (kp : TLSCertificate)
    (h : sc.signing lib env = .ok kp) :
    ∃ ee, Sign lib env.sign sc.ca sc.host [WithValidity env.optNow (24 * Hour)] = .ok ee ∧
      lib.X509KeyPair ee.Chain ee.PKCS8 = .ok kp := by
  unfold serverCert.signing at h
  cases hs : Sign lib env.sign sc.ca sc.host [WithValidity env.optNow (24 * Hour)] with
  | error e => rw [hs] at h; cases h
  | ok ee =>
    rw [hs] at h
    simp only at h
    cases hk : lib.X509KeyPair ee.Chain ee.PKCS8 with
    | error e => rw [hk] at h; cases h
    | ok kp' =>
      rw [hk] at h
      simp only [Except.ok.injEq] at h
      subst h
      exact ⟨ee, rfl, hk⟩

theorem signing_of_sign_error (lib : Lib) (env : TickEnv) (sc : serverCert) (err : String)
    (h : Sign lib env.sign sc.ca sc.host [WithValidity env.optNow (24 * Hour)] = .error err) :
    sc.signing lib env = .error err := by
  simp only [serverCert.signing, h]

theorem signing_of_pair (lib : Lib) (env : TickEnv) (sc : serverCert) (ee : EndEntity)
    (h : Sign lib env.sign sc.ca sc.host [WithValidity env.optNow (24 * Hour)] = .ok ee) :
    sc.signing lib env = lib.X509KeyPair ee.Chain ee.PKCS8 := by
  simp only [serverCert.signing, h]
  cases lib.X509KeyPair ee.Chain ee.PKCS8 <;> rfl

theorem sign_of_signing_error (lib : Lib) (env : TickEnv) (sc : serverCert) (err : String)
    (h : sc.signing lib env = .error err) :
    sc.sign lib env = (sc, some err) ∧ (sc.tick lib env).1 = sc := by
  simp only [serverCert.tick, serverCert.sign, h, and_self]

theorem sign_of_signing_ok (lib : Lib) (env : TickEnv) (sc : serverCert) (kp : TLSCertificate)
    (h : sc.signing lib env = .ok kp) :
    sc.sign lib env = ({ sc with keyPair := some kp }, none) ∧
      (sc.tick lib env).1 = { sc with keyPair := some kp } := by
  simp only [serverCert.tick, serverCert.sign, h, serverCert.swap, and_self]

/-- C8.  A renewal tick whose signing fails, because `Sign` returns an error or
because the chain and the key cannot be paired, leaves the server identity as it was:
the same credential, host and CA; a tick that succeeds replaces the credential by
the newly signed one.  Host and CA never change, a credential is never cleared, and
after a failed tick the later ticks are served from the unchanged state, so that a
later success still replaces the credential. -/
theorem serverCert_failed_tick_keeps_credential (lib : Lib) (env : TickEnv) (sc : serverCert) :
    (∀ err, Sign lib env.sign sc.ca sc.host [WithValidity env.optNow (24 * Hour)] = .error err →
      sc.sign lib env = (sc, some err) ∧ (sc.tick lib env).1 = sc) ∧
    (∀ ee err, Sign lib env.sign sc.ca sc.host [WithValidity env.optNow (24 * Hour)] = .ok ee →
      lib.X509KeyPair ee.Chain ee.PKCS8 = .error err →
      sc.sign lib env = (sc, some err) ∧ (sc.tick lib env).1 = sc) ∧
    (∀ ee kp, Sign lib env.sign sc.ca sc.host [WithValidity env.optNow (24 * Hour)] = .ok ee →
      lib.X509KeyPair ee.Chain ee.PKCS8 = .ok kp →
      sc.sign lib env = ({ sc with keyPair := some kp }, none) ∧
        (sc.tick lib env).1 = { sc with keyPair := some kp }) ∧
    ((sc.tick lib env).1.host = sc.host ∧ (sc.tick lib env).1.ca = sc.ca ∧
      (sc.keyPair ≠ none → (sc.tick lib env).1.keyPair ≠ none)) ∧
    (∀ envs, (sc.sign lib env).2 ≠ none →
      serverCert.ticks lib (env :: envs) sc = serverCert.ticks lib envs sc) ∧
    (∀ env' ee kp, (sc.sign lib env).2 ≠ none →
      Sign lib env'.sign sc.ca sc.host [WithValidity env'.optNow (24 * Hour)] = .ok ee →
      lib.X509KeyPair ee.Chain ee.PKCS8 = .ok kp →
      serverCert.ticks lib [env, env'] sc = { sc with keyPair := some kp }) := by
  have hfail : (sc.sign lib env).2 ≠ none → (sc.tick lib env).1 = sc := by
    intro hne
    cases hs : sc.signing lib env with
    | error e => exact (sign_of_signing_error lib env sc e hs).2
    | ok kp =>
      rw [(sign_of_signing_ok lib env sc kp hs).1] at hne
      exact absurd rfl hne
  refine ⟨?_, ?_, ?_, ?_, ?_, ?_⟩
  · intro err h
    exact sign_of_signing_error lib env sc err (signing_of_sign_error lib env sc err h)
  · intro ee err h hk
    exact sign_of_signing_error lib env sc err (by rw [signing_of_pair lib env sc ee h, hk])
  · intro ee kp h hk
    exact sign_of_signing_ok lib env sc kp (by rw [signing_of_pair lib env sc ee h, hk])
  · cases hs : sc.signing lib env with
    | error e =>
      rw [(sign_of_signing_error lib env sc e hs).2]
      exact ⟨rfl, rfl, id⟩
    | ok kp =>
      rw [(sign_of_signing_ok lib env sc kp hs).2]
      exact ⟨rfl, rfl, fun _ => by simp⟩
  · intro envs hne
    show serverCert.ticks lib envs (sc.tick lib env).1 = serverCert.ticks lib envs sc
    rw [hfail hne]
  · intro env' ee kp hne h hk
    show serverCert.ticks lib [env'] (sc.tick lib env).1 = _
    rw [hfail hne]
    show (sc.tick lib env').1 = _
    exact (sign_of_signing_ok lib env' sc kp
      (by rw [signing_of_pair lib env' sc ee h, hk])).2

/-- Witness of C8 on the concrete library: a tick in which key generation fails, a
tick in which the pairing fails, a tick that succeeds, and a failed tick followed by
a successful one. -/
theorem serverCert_failed_tick_keeps_credential_witness :
    (demoServerCert.sign demoLib ⟨99, demoFailEnv⟩ =
        (demoServerCert, some "entropy source failed") ∧
      (demoServerCert.tick demoLib ⟨99, demoFailEnv⟩).1 = demoServerCert) ∧
    (demoServerCert.sign demoLibMismatch ⟨88, demoEnv 6⟩ =
        (demoServerCert, some "tls: private key does not match public key") ∧
      (demoServerCert.tick demoLibMismatch ⟨88, demoEnv 6⟩).1 = demoServerCert) ∧
    (demoServerCert.sign demoLib ⟨88, demoEnv 6⟩ =
        ({ demoServerCert with keyPair := some ⟨[[1006, 10], [3]], 6⟩ }, none) ∧
      (demoServerCert.tick demoLib ⟨88, demoEnv 6⟩).1 =
        { demoServerCert with keyPair := some ⟨[[1006, 10], [3]], 6⟩ }) ∧
    serverCert.ticks demoLib [⟨99, demoFailEnv⟩, ⟨88, demoEnv 6⟩] demoServerCert =
      serverCert.ticks demoLib [⟨88, demoEnv 6⟩] demoServerCert ∧
    serverCert.ticks demoLib [⟨99, demoFailEnv⟩, ⟨88, demoEnv 6⟩] demoServerCert =
      { demoServerCert with keyPair := some ⟨[[1006, 10], [3]], 6⟩ } :=
  ⟨(serverCert_failed_tick_keeps_credential demoLib ⟨99, demoFailEnv⟩ demoServerCert).1
      "entropy source failed" rfl,
    (serverCert_failed_tick_keeps_credential demoLibMismatch ⟨88, demoEnv 6⟩
      demoServerCert).2.1 ⟨[2, 1, 6], [1, 2, 1006, 10, 1, 1, 3]⟩
      "tls: private key does not match public key" rfl rfl,
    (serverCert_failed_tick_keeps_credential demoLib ⟨88, demoEnv 6⟩ demoServerCert).2.2.1
      ⟨[2, 1, 6], [1, 2, 1006, 10, 1, 1, 3]⟩ ⟨[[1006, 10], [3]], 6⟩ rfl rfl,
    (serverCert_failed_tick_keeps_credential demoLib ⟨99, demoFailEnv⟩
      demoServerCert).2.2.2.2.1 [⟨88, demoEnv 6⟩] (by decide),
    (serverCert_failed_tick_keeps_credential demoLib ⟨99, demoFailEnv⟩
      demoServerCert).2.2.2.2.2 ⟨88, demoEnv 6⟩ ⟨[2, 1, 6], [1, 2, 1006, 10, 1, 1, 3]⟩
      ⟨[[1006, 10], [3]], 6⟩ (by decide) rfl rfl⟩

theorem FromOneSign_mono (lib : Lib) (host : String) (ca : CA) (E E' : List TickEnv)
    (o : Option TLSCertificate) (h : FromOneSign lib host ca E o) :
    FromOneSign lib host ca (E ++ E') o := by
  obtain ⟨env, hmem, ee, kp, h1, h2, h3⟩ := h
  exact ⟨env, List.mem_append_left _ hmem, ee, kp, h1, h2, h3⟩

theorem FromOneSign_of_signing (lib : Lib) (env : TickEnv) (sc : serverCert)
    (kp : TLSCertificate) (E : List TickEnv) (hmem : env ∈ E)
    (h : sc.signing lib env = .ok kp) :
    FromOneSign lib sc.host sc.ca E (some kp) := by
  obtain ⟨ee, h1, h2⟩ := signing_ok lib env sc kp h
  exact ⟨env, hmem, ee, kp, h1, h2, rfl⟩

theorem NewServerCert_ok (lib : Lib) (env : TickEnv) (host : String) (ca : CA)
    (sc0 : serverCert) (h : NewServerCert lib env host ca = .ok sc0) :
    ∃ kp, serverCert.signing lib env ⟨host, ca, none⟩ = .ok kp ∧ sc0 = ⟨host, ca, some kp⟩ := by
  cases hs : serverCert.signing lib env ⟨host, ca, none⟩ with
  | error e =>
    simp [NewServerCert, (sign_of_signing_error lib env _ e hs).1] at h
  | ok kp =>
    simp only [NewServerCert, (sign_of_signing_ok lib env _ kp hs).1, Except.ok.injEq] at h
    exact ⟨kp, rfl, h.symm⟩

theorem Sys_run_invariant (lib : Lib) (host : String) (ca : CA) :
    ∀ (evs : List Event) (s : Sys) (E : List TickEnv),
      s.sc.host = host → s.sc.ca = ca →
      FromOneSign lib host ca E s.sc.keyPair →
      (∀ kp, s.pending = some kp → FromOneSign lib host ca E (some kp)) →
      (∀ o ∈ s.observed, FromOneSign lib host ca E o) →
      (Sys.run lib s evs).sc.host = host ∧ (Sys.run lib s evs).sc.ca = ca ∧
      FromOneSign lib host ca (E ++ Event.envs evs) (Sys.run lib s evs).sc.keyPair ∧
      (∀ kp, (Sys.run lib s evs).pending = some kp →
        FromOneSign lib host ca (E ++ Event.envs evs) (some kp)) ∧
      (∀ o ∈ (Sys.run lib s evs).observed, FromOneSign lib host ca (E ++ Event.envs evs) o) := by
  intro evs
  induction evs with
  | nil =>
    intro s E hh hc hk hp ho
    simp only [Sys.run, List.foldl_nil, Event.envs, List.append_nil]
    exact ⟨hh, hc, hk, hp, ho⟩
  | cons ev evs ih =>
    intro s E hh hc hk hp ho
    have hrun : Sys.run lib s (ev :: evs) = Sys.run lib (s.step lib ev) evs := rfl
    rw [hrun]
    cases ev with
    | signing env =>
      have henvs : E ++ Event.envs (Event.signing env :: evs) =
          (E ++ [env]) ++ Event.envs evs := by
        simp [Event.envs]
      rw [henvs]
      have hk' := FromOneSign_mono lib host ca E [env] _ hk
      have hp' : ∀ kp, s.pending = some kp → FromOneSign lib host ca (E ++ [env]) (some kp) :=
        fun kp h => FromOneSign_mono lib host ca E [env] _ (hp kp h)
      have ho' : ∀ o ∈ s.observed, FromOneSign lib host ca (E ++ [env]) o :=
        fun o h => FromOneSign_mono lib host ca E [env] _ (ho o h)
      cases hpend : s.pending with
      | some kp0 =>
        have hstep : s.step lib (.signing env) = s := by simp only [Sys.step, hpend]
        rw [hstep]
        exact ih s _ hh hc hk' hp' ho'
      | none =>
        cases hs : s.sc.signing lib env with
        | error e =>
          have hstep : s.step lib (.signing env) = s := by simp only [Sys.step, hpend, hs]
          rw [hstep]
          exact ih s _ hh hc hk' hp' ho'
        | ok kp =>
          have hstep : s.step lib (.signing env) = { s with pending := some kp } := by
            simp only [Sys.step, hpend, hs]
          rw [hstep]
          refine ih _ _ hh hc hk' ?_ ho'
          intro kp' hkp'
          simp only [Option.some.injEq] at hkp'
          subst hkp'
          have := FromOneSign_of_signing lib env s.sc kp (E ++ [env]) (by simp) hs
          rwa [hh, hc] at this
    | swap =>
      have henvs : E ++ Event.envs (Event.swap :: evs) = E ++ Event.envs evs := by
        simp [Event.envs]
      rw [henvs]
      cases hpend : s.pending with
      | none =>
        have hstep : s.step lib .swap = s := by simp only [Sys.step, hpend]
        rw [hstep]
        exact ih s _ hh hc hk hp ho
      | some kp =>
        have hstep : s.step lib .swap = { s with sc := s.sc.swap kp, pending := none } := by
          simp only [Sys.step, hpend]
        rw [hstep]
        refine ih _ _ hh hc (hp kp hpend) ?_ ho
        intro kp' hkp'
        cases hkp'
    | get =>
      have henvs : E ++ Event.envs (Event.get :: evs) = E ++ Event.envs evs := by
        simp [Event.envs]
      rw [henvs]
      refine ih _ _ hh hc hk hp ?_
      intro o hmem
      simp only [Sys.step, List.mem_append, List.mem_singleton] at hmem
      rcases hmem with hmem | hmem
      · exact ho o hmem
      · rw [hmem]; exact hk

/-- C9.  In every state reached from a successful `NewServerCert` by a run of signing
steps (succeeding or failing), swaps and reads, each credential returned by a read,
and the active credential itself, is the pairing of the chain and the key of one and
the same result of `Sign`.  A signing step leaves the shared `serverCert` untouched,
the swap installs the finished pair as a whole in one step, and a read returns the
whole active pair. -/
theorem Get_returns_pair_of_one_signing (lib : Lib) (env0 : TickEnv) (host : String) (ca : CA)
    (sc0 : serverCert) (h0 : NewServerCert lib env0 host ca = .ok sc0) (evs : List Event) :
    (∀ o ∈ (Sys.run lib (Sys.init sc0) evs).observed,
      FromOneSign lib host ca (env0 :: Event.envs evs) o) ∧
    FromOneSign lib host ca (env0 :: Event.envs evs) (Sys.run lib (Sys.init sc0) evs).sc.Get.1 ∧
    (∀ (s : Sys) (env : TickEnv),
      (s.step lib (.signing env)).sc = s.sc ∧
      (s.step lib (.signing env)).observed = s.observed) ∧
    (∀ (s : Sys) (kp : TLSCertificate), s.pending = some kp →
      (s.step lib .swap).sc.keyPair = some kp ∧ (s.step lib .swap).pending = none) ∧
    (∀ s : Sys, (s.step lib .get).observed = s.observed ++ [s.sc.keyPair] ∧
      (s.step lib .get).sc = s.sc ∧ s.sc.Get.2 = none) := by
  obtain ⟨kp0, hsig, hsc0⟩ := NewServerCert_ok lib env0 host ca sc0 h0
  subst hsc0
  have hinit : FromOneSign lib host ca [env0] (some kp0) :=
    FromOneSign_of_signing lib env0 ⟨host, ca, none⟩ kp0 [env0] (by simp) hsig
  have hinv := Sys_run_invariant lib host ca evs (Sys.init ⟨host, ca, some kp0⟩) [env0]
    rfl rfl hinit (fun kp h => by cases h) (fun o h => by cases h)
  refine ⟨hinv.2.2.2.2, hinv.2.2.1, ?_, ?_, ?_⟩
  · intro s env
    cases hpend : s.pending with
    | some kp => simp only [Sys.step, hpend, and_self]
    | none =>
      cases hs : s.sc.signing lib env with
      | error e => simp only [Sys.step, hpend, hs, and_self]
      | ok kp => simp only [Sys.step, hpend, hs, and_self]
  · intro s kp hpend
    simp only [Sys.step, hpend, serverCert.swap, and_self]
  · intro s
    exact ⟨rfl, rfl, rfl⟩

/-- Witness of C9 on the concrete library: the four reads of `demoEvents` return the
first credential twice, then the renewed one twice, the failed renewal changing
nothing. -/
theorem Get_returns_pair_of_one_signing_witness :
    (∀ o ∈ (Sys.run demoLib (Sys.init demoServerCert) demoEvents).observed,
      FromOneSign demoLib "ca.example" demoCA (⟨77, demoEnv 5⟩ :: Event.envs demoEvents) o) ∧
    (Sys.run demoLib (Sys.init demoServerCert) demoEvents).observed =
      [some ⟨[[1005, 10], [3]], 5⟩, some ⟨[[1005, 10], [3]], 5⟩,
        some ⟨[[1006, 10], [3]], 6⟩, some ⟨[[1006, 10], [3]], 6⟩] :=
  ⟨(Get_returns_pair_of_one_signing demoLib ⟨77, demoEnv 5⟩ "ca.example" demoCA
      demoServerCert rfl demoEvents).1, rfl⟩

/-! ## The renewal client -/

theorem old_ne (P : String) : P ++ ".old" ≠ P := by
  intro h
  have := congrArg String.length h
  simp only [String.length_append] at this
  have h4 : ".old".length = 4 := by decide
  omega

theorem Rename_ok (os : OsEnv) (fs : FS) (P Q : String) (f : File) (hP : fs P = some f)
    (hr : os.renameErr = none) :
    Rename os fs P Q = .ok (fun p => if p = Q then some f else if p = P then none else fs p) := by
  simp only [Rename, hP, hr]

theorem Rename_refused (os : OsEnv) (fs : FS) (P Q : String) (f : File) (err : String)
    (hP : fs P = some f) (hr : os.renameErr = some err) :
    Rename os fs P Q = .error err := by
  simp only [Rename, hP, hr]

theorem WriteFile_absent (os : OsEnv) (fs : FS) (name : String) (data : ByteSeq) (perm : Nat)
    (h : fs name = none) :
    (∀ q, q ≠ name → (WriteFile os fs name data perm).1 q = fs q) ∧
    (os.openErr = none → os.writeErr = none →
      (WriteFile os fs name data perm).1 name = some ⟨data, perm⟩) ∧
    ((WriteFile os fs name data perm).2 = none ↔
      os.openErr = none ∧ os.writeErr = none ∧ os.closeErr = none) ∧
    (∀ err, os.openErr = some err → (WriteFile os fs name data perm).1 name = none) ∧
    (∀ n err, os.openErr = none → os.writeErr = some (n, err) →
      (WriteFile os fs name data perm).1 name = some ⟨data.take n, perm⟩) := by
  cases ho : os.openErr with
  | some e =>
    have hw : WriteFile os fs name data perm = (fs, some e) := by
      simp only [WriteFile, ho]
    rw [hw]
    refine ⟨?_, ?_, ?_, ?_, ?_⟩
    · intro q _; rfl
    · intro h1; cases h1
    · simp
    · intro _ _; exact h
    · intro _ _ h1; cases h1
  | none =>
    cases hwe : os.writeErr with
    | some ne =>
      obtain ⟨n, e⟩ := ne
      have hw : WriteFile os fs name data perm =
          (fun p => if p = name then some ⟨data.take n, perm⟩ else fs p, some e) := by
        simp only [WriteFile, ho, h, WriteFile.write, hwe]
      rw [hw]
      refine ⟨?_, ?_, ?_, ?_, ?_⟩
      · intro q hq; simp [hq]
      · intro _ h2; cases h2
      · simp
      · intro _ h1; cases h1
      · intro n' e' _ h2
        simp only [Option.some.injEq, Prod.mk.injEq] at h2
        simp [h2.1]
    | none =>
      have hw : WriteFile os fs name data perm =
          (fun p => if p = name then some ⟨data, perm⟩ else fs p, os.closeErr) := by
        simp only [WriteFile, ho, h, WriteFile.write, hwe]
      rw [hw]
      refine ⟨?_, ?_, ?_, ?_, ?_⟩
      · intro q hq; simp [hq]
      · intro _ _; simp
      · simp
      · intro _ h1; cases h1
      · intro _ _ _ h2; cases h2

/-- C10.  With the credential file `P` holding `C`: a response whose status is not 200
or whose Content-Type is not the single value "application/x-pem-file" (or whose body
cannot be read) changes no file.  Otherwise the client first renames `P` to
`P ++ ".old"`; a refused rename changes no file, and after the rename the backup
holds `C` and `P` is gone.  Only then does it write the body `B` to `P`, creating it
with mode 0400: when the open and the write go through `P` holds exactly `B` with
mode 0400, the backup still holds `C` and no other file has changed, and the run ends
without fatal error exactly when open, write and close all go through; a failed write
leaves in `P` the bytes that reached it.  In every state that follows a step of the
client the backup holds `C`, so `P` is never written before the move. -/
theorem client_backs_up_then_writes (os : OsEnv) (P : String) (C : ByteSeq) (mode : Nat)
    (fs : FS) (r : Response) (hP : fs P = some ⟨C, mode⟩) :
    ((r.StatusCode ≠ 200 ∨ r.Header "Content-Type" ≠ ["application/x-pem-file"]) →
      (client.main os P r fs).steps = [] ∧ (client.main os P r fs).fs = fs ∧
        (client.main os P r fs).fatal ≠ none) ∧
    (∀ err, r.Body = .error err →
      (client.main os P r fs).steps = [] ∧ (client.main os P r fs).fs = fs ∧
        (client.main os P r fs).fatal ≠ none) ∧
    (∀ B, r.StatusCode = 200 → r.Header "Content-Type" = ["application/x-pem-file"] →
      r.Body = .ok B →
      (∀ err, os.renameErr = some err →
        (client.main os P r fs).steps = [] ∧ (client.main os P r fs).fs = fs ∧
          (client.main os P r fs).fatal ≠ none) ∧
      (os.renameErr = none →
        ∃ fs1 fs2, (client.main os P r fs).steps = [fs1, fs2] ∧
          (client.main os P r fs).fs = fs2 ∧
          Rename os fs P (P ++ ".old") = .ok fs1 ∧
          (WriteFile os fs1 P B 0o400).1 = fs2 ∧
          fs1 (P ++ ".old") = some ⟨C, mode⟩ ∧ fs1 P = none ∧
          (∀ q, q ≠ P → q ≠ P ++ ".old" → fs1 q = fs q) ∧
          fs2 (P ++ ".old") = some ⟨C, mode⟩ ∧
          (∀ q, q ≠ P → fs2 q = fs1 q) ∧
          (os.openErr = none → os.writeErr = none → fs2 P = some ⟨B, 0o400⟩) ∧
          ((client.main os P r fs).fatal = none ↔
            os.openErr = none ∧ os.writeErr = none ∧ os.closeErr = none) ∧
          (∀ err, os.openErr = some err → fs2 P = none) ∧
          (∀ n err, os.openErr = none → os.writeErr = some (n, err) →
            fs2 P = some ⟨B.take n, 0o400⟩))) ∧
    (∀ s ∈ (client.main os P r fs).steps, s (P ++ ".old") = some ⟨C, mode⟩) := by
  have hne := old_ne P
  have hne' : P ≠ P ++ ".old" := fun h => hne h.symm
  obtain ⟨fs1, hfs1⟩ : ∃ fs1 : FS, fs1 =
      fun p => if p = P ++ ".old" then some ⟨C, mode⟩ else if p = P then none else fs p :=
    ⟨_, rfl⟩
  have hfs1old : fs1 (P ++ ".old") = some ⟨C, mode⟩ := by rw [hfs1]; simp
  have hfs1P : fs1 P = none := by rw [hfs1]; simp [hne']
  have hfs1q : ∀ q, q ≠ P → q ≠ P ++ ".old" → fs1 q = fs q := by
    intro q h1 h2; rw [hfs1]; simp [h1, h2]
  have hren : os.renameErr = none → Rename os fs P (P ++ ".old") = .ok fs1 := by
    intro hr; rw [hfs1]; exact Rename_ok os fs P _ _ hP hr
  have hrej : (r.StatusCode ≠ 200 ∨ r.Header "Content-Type" ≠ ["application/x-pem-file"]) →
      (client.main os P r fs).steps = [] ∧ (client.main os P r fs).fs = fs ∧
        (client.main os P r fs).fatal ≠ none := by
    intro h
    by_cases hs : r.StatusCode = 200
    · have hct : r.Header "Content-Type" ≠ ["application/x-pem-file"] := by
        rcases h with h | h
        · exact absurd hs h
        · exact h
      have hcond : ((r.Header "Content-Type").length ≠ 1 ||
          (r.Header "Content-Type")[0]? ≠ some "application/x-pem-file") = true := by
        cases hl : r.Header "Content-Type" with
        | nil => simp
        | cons a l =>
          cases l with
          | nil =>
            have : a ≠ "application/x-pem-file" := by
              intro ha; apply hct; rw [hl, ha]
            simp [this]
          | cons b l => simp
      have hmain : client.main os P r fs =
          ⟨[], fs, some "Got content-type, want application/x-pem-file", []⟩ := by
        simp only [client.main, hs, StatusOK, ne_eq, not_true_eq_false, if_false, hcond, if_true]
      rw [hmain]
      exact ⟨rfl, rfl, by simp⟩
    · have hs' : r.StatusCode ≠ StatusOK := hs
      have hmain : client.main os P r fs =
          ⟨[], fs, some ("Unexpected response status: " ++ r.Status), []⟩ := by
        simp only [client.main, hs', ne_eq, not_false_eq_true, if_true]
      rw [hmain]
      exact ⟨rfl, rfl, by simp⟩
  have hrej' : ¬ (r.StatusCode = 200 ∧ r.Header "Content-Type" = ["application/x-pem-file"]) →
      (client.main os P r fs).steps = [] ∧ (client.main os P r fs).fs = fs ∧
        (client.main os P r fs).fatal ≠ none := by
    intro hc
    apply hrej
    by_cases hs : r.StatusCode = 200
    · exact Or.inr (fun h => hc ⟨hs, h⟩)
    · exact Or.inl hs
  have hbody : ∀ err, r.Body = .error err →
      (client.main os P r fs).steps = [] ∧ (client.main os P r fs).fs = fs ∧
        (client.main os P r fs).fatal ≠ none := by
    intro err hb
    by_cases hc : r.StatusCode = 200 ∧ r.Header "Content-Type" = ["application/x-pem-file"]
    · simp [client.main, hc.1, hc.2, hb, StatusOK]
    · exact hrej' hc
  have hrefused : ∀ B err, r.StatusCode = 200 →
      r.Header "Content-Type" = ["application/x-pem-file"] → r.Body = .ok B →
      os.renameErr = some err →
      (client.main os P r fs).steps = [] ∧ (client.main os P r fs).fs = fs ∧
        (client.main os P r fs).fatal ≠ none := by
    intro B err hs hct hb hr
    simp [client.main, hs, hct, hb, StatusOK, Rename_refused os fs P _ _ err hP hr]
  have hmain : ∀ B, r.StatusCode = 200 →
      r.Header "Content-Type" = ["application/x-pem-file"] → r.Body = .ok B →
      os.renameErr = none →
      (client.main os P r fs).steps = [fs1, (WriteFile os fs1 P B 0o400).1] ∧
        (client.main os P r fs).fs = (WriteFile os fs1 P B 0o400).1 ∧
        ((client.main os P r fs).fatal = none ↔ (WriteFile os fs1 P B 0o400).2 = none) := by
    intro B hs hct hb hr
    cases hw : WriteFile os fs1 P B 0o400 with
    | mk fs2 e =>
      cases e with
      | none => simp [client.main, hs, hct, hb, StatusOK, hren hr, hw]
      | some err => simp [client.main, hs, hct, hb, StatusOK, hren hr, hw]
  refine ⟨hrej, hbody, ?_, ?_⟩
  · intro B hs hct hb
    refine ⟨fun err hr => hrefused B err hs hct hb hr, ?_⟩
    intro hr
    obtain ⟨h1, h2, h3⟩ := hmain B hs hct hb hr
    obtain ⟨w1, w2, w3, w4, w5⟩ := WriteFile_absent os fs1 P B 0o400 hfs1P
    refine ⟨fs1, (WriteFile os fs1 P B 0o400).1, h1, h2, hren hr, rfl, hfs1old, hfs1P, hfs1q,
      ?_, w1, w2, h3.trans w3, w4, w5⟩
    rw [w1 _ hne]
    exact hfs1old
  · intro s hmem
    by_cases hc : r.StatusCode = 200 ∧ r.Header "Content-Type" = ["application/x-pem-file"]
    · cases hb : r.Body with
      | error err =>
        rw [(hbody err hb).1] at hmem
        cases hmem
      | ok B =>
        cases hr : os.renameErr with
        | some err =>
          rw [(hrefused B err hc.1 hc.2 hb hr).1] at hmem
          cases hmem
        | none =>
          rw [(hmain B hc.1 hc.2 hb hr).1] at hmem
          simp only [List.mem_cons, List.mem_singleton, List.not_mem_nil, or_false] at hmem
          rcases hmem with hmem | hmem
          · rw [hmem]; exact hfs1old
          · rw [hmem, (WriteFile_absent os fs1 P B 0o400 hfs1P).1 _ hne]
            exact hfs1old
    · rw [(hrej' hc).1] at hmem
      cases hmem

/-- Witness of C10 on the concrete file system: a refused response changes nothing; an
accepted one moves `client.pem` to `client.pem.old` and then writes the body with
mode 0400; a refused rename changes nothing; and when the write fails the run ends
with a fatal error, `client.pem` is empty and the backup holds the old credential. -/
theorem client_backs_up_then_writes_witness :
    ((client.main demoOs "client.pem" demoRefusal demoFS).steps = [] ∧
      (client.main demoOs "client.pem" demoRefusal demoFS).fs = demoFS ∧
      (client.main demoOs "client.pem" demoRefusal demoFS).fatal ≠ none) ∧
    (∃ fs1 fs2, (client.main demoOs "client.pem" demoResponse demoFS).steps = [fs1, fs2] ∧
      (client.main demoOs "client.pem" demoResponse demoFS).fs = fs2 ∧
      (client.main demoOs "client.pem" demoResponse demoFS).fatal = none ∧
      fs1 ("client.pem" ++ ".old") = some ⟨[9, 9, 9], 0o400⟩ ∧ fs1 "client.pem" = none ∧
      fs2 "client.pem" = some ⟨[2, 1, 5, 1, 2, 1005, 9, 1, 1, 3], 0o400⟩ ∧
      fs2 ("client.pem" ++ ".old") = some ⟨[9, 9, 9], 0o400⟩) ∧
    ((client.main demoOsDenied "client.pem" demoResponse demoFS).steps = [] ∧
      (client.main demoOsDenied "client.pem" demoResponse demoFS).fs = demoFS ∧
      (client.main demoOsDenied "client.pem" demoResponse demoFS).fatal ≠ none) ∧
    (∃ fs1 fs2, (client.main demoOsFull "client.pem" demoResponse demoFS).steps = [fs1, fs2] ∧
      (client.main demoOsFull "client.pem" demoResponse demoFS).fatal ≠ none ∧
      fs2 "client.pem" = some ⟨[], 0o400⟩ ∧
      fs2 ("client.pem" ++ ".old") = some ⟨[9, 9, 9], 0o400⟩) := by
  refine ⟨(client_backs_up_then_writes demoOs "client.pem" [9, 9, 9] 0o400 demoFS
    demoRefusal rfl).1 (Or.inl (by decide)), ?_, ?_, ?_⟩
  · obtain ⟨fs1, fs2, h1, h2, _, _, h5, h6, _, h8, _, h10, h11, _⟩ :=
      ((client_backs_up_then_writes demoOs "client.pem" [9, 9, 9] 0o400 demoFS
        demoResponse rfl).2.2.1 [2, 1, 5, 1, 2, 1005, 9, 1, 1, 3] rfl rfl rfl).2 rfl
    exact ⟨fs1, fs2, h1, h2, h11.2 ⟨rfl, rfl, rfl⟩, h5, h6, h10 rfl rfl, h8⟩
  · exact ((client_backs_up_then_writes demoOsDenied "client.pem" [9, 9, 9] 0o400 demoFS
      demoResponse rfl).2.2.1 [2, 1, 5, 1, 2, 1005, 9, 1, 1, 3] rfl rfl rfl).1
      "rename client.pem client.pem.old: permission denied" rfl
  · obtain ⟨fs1, fs2, h1, _, _, _, _, _, _, h8, _, _, h11, _, h13⟩ :=
      ((client_backs_up_then_writes demoOsFull "client.pem" [9, 9, 9] 0o400 demoFS
        demoResponse rfl).2.2.1 [2, 1, 5, 1, 2, 1005, 9, 1, 1, 3] rfl rfl rfl).2 rfl
    refine ⟨fs1, fs2, h1, ?_, h13 0 "write client.pem: no space left on device" rfl rfl, h8⟩
    intro hf
    have := (h11.1 hf).2.1
    cases this

end PrivateCA
